import Mathlib

/-!
# MDI engine of LAMMPS (USER-MDI): embedding and verified properties

Shallow embedding of `src/USER-MDI/fix_driver.cpp` (class `FixMDI`, the engine
side of the MolSSI Driver Interface) and of the orchestration functions of
`src/USER-MDI/driver.cpp` (class `CommandMDI`).

Conventions of the embedding

* C++ `int` nodes and counters are `Int`; `double` values are exact rationals.
* A command token is the C string held in the command buffer; `strcmp(..) == 0`
  is string equality.
* The driver is a list of messages: a command token together with the payload
  the driver sends right after it.
* `error->all` aborts the process: it is the status `fatal`, which records the
  engine state and the unread driver input at the abort.
* All parallel workers execute the same command sequence, so one state holds the
  control fields once and the per-atom data of every worker (`atoms[r]` is the
  local atom array of rank `r`, in local order; rank 0 is the master).
* The integrator, the minimizer, the force field and the heap are external: they
  are the fields of `Sim`.
-/

namespace MDI

/-! ## Data model -/

/-- One locally owned atom: `atom->tag[i]`, `atom->mask[i]`, `atom->type[i]`,
`atom->x[i]`, `atom->f[i]`, `atom->q[i]`. -/
structure Atom where
  tag : Int
  mask : Nat
  type : Int
  x0 : ℚ
  x1 : ℚ
  x2 : ℚ
  f0 : ℚ
  f1 : ℚ
  f2 : ℚ
  q : ℚ
deriving DecidableEq

/-- What the master sends to the driver: `MDI_Send_Command` or `MDI_Send` with
an integer or a floating-point buffer. -/
inductive Reply where
  | command (c : String)
  | ints (v : List Int)
  | doubles (v : List ℚ)
deriving DecidableEq

/-- One exchange started by the driver: the command token and the payload that
follows it (`ival` for `MDI_INT`, `data` for `MDI_DOUBLE`). -/
structure Msg where
  command : String
  ival : Int
  data : List ℚ
deriving DecidableEq

/-- A message that carries only a command token. -/
def Msg.of (c : String) : Msg := ⟨c, 0, []⟩

/-- The members of `FixMDI` and the parts of `atom`, `domain` it touches. The
last two fields are bookkeeping of the embedding: how often `md_setup` and
`update->integrate->run(1)` of `timestep` have been called. -/
structure FixMDI where
  current_node : Int
  target_node : Int
  most_recent_init : Int
  exit_flag : Bool
  local_exit_flag : Bool
  natoms : Int
  ntypes : Int
  groupbit : Nat
  add_force : List ℚ
  atoms : List (List Atom)
  mass : List ℚ
  celldata : List ℚ
  potential_energy : ℚ
  sent : List Reply
  md_setup_calls : Nat
  run_calls : Nat
deriving DecidableEq

/-- The fix callbacks named in `FixMDI::setmask` plus `setup`. -/
inductive Callback where
  | setup
  | post_integrate
  | post_force
  | min_pre_force
  | min_pre_reverse
  | min_post_force
  | end_of_step
deriving DecidableEq

/-- What an integrator or minimizer call does, seen from the fix: it invokes a
fix callback or updates the per-atom data itself (`physics k`). -/
inductive Event where
  | callback (c : Callback)
  | physics (k : Nat)
deriving DecidableEq

/-- The external collaborators of the engine. `posconv` is
`force->angstrom/MDI_ANGSTROM_TO_BOHR`, `potconv` is
`MDI_KELVIN_TO_HARTREE/force->boltz`; `heap r i` is the content of slot `i` of a
buffer that rank `r` obtains from `new double[..]` (not set by the program);
`run` and `iterate` list what `update->integrate->run(1)` and
`update->minimize->iterate(10)` do; `force_eval` is the force computation of
`setup(1)` and `setup_minimal(1)`; `remap` is the periodic wrap, box reset and
atom migration of `receive_coordinates`. -/
structure Sim where
  posconv : ℚ
  potconv : ℚ
  heap : Nat → Nat → ℚ
  pe_compute : List (List Atom) → ℚ
  physics : Nat → List (List Atom) → List (List Atom)
  force_eval : List (List Atom) → List (List Atom)
  remap : List (List Atom) → List (List Atom)
  run : List Event
  iterate : List Event

/-- How a call ended. `fatal` is `error->all`, `blocked` is a wait in
`MDI_Recv_Command` with no driver input left, `fault` is an access outside a
buffer, `out_of_fuel` is the end of the evaluation budget. -/
inductive Status where
  | ok
  | fatal (msg : String)
  | blocked
  | fault
  | out_of_fuel
deriving DecidableEq

/-- Result of a call: status, engine state and unread driver input. -/
structure Outcome where
  status : Status
  state : FixMDI
  rest : List Msg
deriving DecidableEq

/-- Normal return. -/
def Outcome.ok (s : FixMDI) (rest : List Msg) : Outcome := ⟨Status.ok, s, rest⟩

/-- Abort through `error->all(FLERR,msg)`. -/
def Outcome.fatal (msg : String) (s : FixMDI) (rest : List Msg) : Outcome :=
  ⟨Status.fatal msg, s, rest⟩

/-- Sequencing: the continuation runs only after a normal return. -/
def Outcome.andThen (o : Outcome) (k : FixMDI → List Msg → Outcome) : Outcome :=
  match o.status with
  | Status.ok => k o.state o.rest
  | _ => o

/-! ## Buffers -/

/-- Checked read `b[i]`. -/
def buf_read (b : List ℚ) (i : Int) : Option ℚ :=
  if 0 ≤ i then b[i.toNat]? else none

/-- Checked write `b[i] = v`. -/
def buf_write (b : List ℚ) (i : Int) (v : ℚ) : Option (List ℚ) :=
  if 0 ≤ i ∧ i.toNat < b.length then some (b.set i.toNat v) else none

/-- Checked write of the three slots `3*(tag-1)+0..2`. -/
def buf_write3 (b : List ℚ) (tag : Int) (v0 v1 v2 : ℚ) : Option (List ℚ) :=
  match buf_write b (3 * (tag - 1) + 0) v0 with
  | none => none
  | some b0 =>
    match buf_write b0 (3 * (tag - 1) + 1) v1 with
    | none => none
    | some b1 => buf_write b1 (3 * (tag - 1) + 2) v2

/-- The buffer `new double[n]` of rank `r`: its content is whatever the heap
holds. -/
def new_double (sim : Sim) (r : Nat) (n : Int) : List ℚ :=
  (List.range n.toNat).map (sim.heap r)

/-- Element-wise sum of two buffers of the same length. -/
def buf_add (a b : List ℚ) : List ℚ := List.zipWith (fun u v => u + v) a b

/-- `MPI_Reduce(.., n, MPI_DOUBLE, MPI_SUM, 0, world)`: the element-wise sum of
the buffers of all ranks. -/
def mpi_reduce_sum (n : Int) (bufs : List (List ℚ)) : List ℚ :=
  bufs.foldl buf_add (List.replicate n.toNat 0)

/-- Apply a fallible per-rank step to every rank, numbering the ranks from
`r`. -/
def each_rank {α β : Type} (step : Nat → α → Option β) : Nat → List α → Option (List β)
  | _, [] => some []
  | r, a :: rest =>
    match step r a with
    | none => none
    | some b =>
      match each_rank step (r + 1) rest with
      | none => none
      | some bs => some (b :: bs)

/-! ## Data marshalling (`send_*`, `receive_*`, `add_forces`) -/

/-- The unit factor `forceconv = potconv*posconv`. -/
def forceconv (sim : Sim) : ℚ := sim.potconv * sim.posconv

/-- Loop of `receive_coordinates` on one rank:
`x[i][k] = buffer[3*(tag[i]-1)+k]*posconv`. -/
def scatter_coords (posconv : ℚ) (buffer : List ℚ) : List Atom → Option (List Atom)
  | [] => some []
  | a :: rest =>
    match buf_read buffer (3 * (a.tag - 1) + 0), buf_read buffer (3 * (a.tag - 1) + 1),
        buf_read buffer (3 * (a.tag - 1) + 2) with
    | some v0, some v1, some v2 =>
      match scatter_coords posconv buffer rest with
      | some r => some ({ a with x0 := v0 * posconv, x1 := v1 * posconv, x2 := v2 * posconv } :: r)
      | none => none
    | _, _, _ => none

/-- Loop of `send_coordinates` on one rank:
`coords[3*(tag[i]-1)+k] = x[i][k]/posconv`. -/
def pack_coords (posconv : ℚ) : List Atom → List ℚ → Option (List ℚ)
  | [], b => some b
  | a :: rest, b =>
    match buf_write3 b a.tag (a.x0 / posconv) (a.x1 / posconv) (a.x2 / posconv) with
    | none => none
    | some b1 => pack_coords posconv rest b1

/-- Loop of `send_charges` on one rank: `charges[tag[i]-1] = charge[i]`. -/
def pack_charges : List Atom → List ℚ → Option (List ℚ)
  | [], b => some b
  | a :: rest, b =>
    match buf_write b (a.tag - 1) a.q with
    | none => none
    | some b1 => pack_charges rest b1

/-- Loop of `send_forces` on one rank:
`forces[3*(tag[i]-1)+k] = f[i][k]*forceconv`. -/
def pack_forces (fc : ℚ) : List Atom → List ℚ → Option (List ℚ)
  | [], b => some b
  | a :: rest, b =>
    match buf_write3 b a.tag (a.f0 * fc) (a.f1 * fc) (a.f2 * fc) with
    | none => none
    | some b1 => pack_forces fc rest b1

/-- Loop of `receive_forces` on one rank:
`f[i][k] = forces[3*(tag[i]-1)+k]/forceconv`. -/
def scatter_forces (fc : ℚ) (forces : List ℚ) : List Atom → Option (List Atom)
  | [] => some []
  | a :: rest =>
    match buf_read forces (3 * (a.tag - 1) + 0), buf_read forces (3 * (a.tag - 1) + 1),
        buf_read forces (3 * (a.tag - 1) + 2) with
    | some v0, some v1, some v2 =>
      match scatter_forces fc forces rest with
      | some r => some ({ a with f0 := v0 / fc, f1 := v1 / fc, f2 := v2 / fc } :: r)
      | none => none
    | _, _, _ => none

/-- The buffer `coords_reduced` of `send_coordinates`: every rank fills a
`new double[3*natoms]` buffer in its loop, then `MPI_Reduce` sums them. -/
def gather_coordinates (sim : Sim) (natoms : Int) (atoms : List (List Atom)) : Option (List ℚ) :=
  match each_rank (fun r l => pack_coords sim.posconv l (new_double sim r (3 * natoms))) 0 atoms with
  | none => none
  | some bufs => some (mpi_reduce_sum (3 * natoms) bufs)

/-- The buffer `charges_reduced` of `send_charges`. -/
def gather_charges (sim : Sim) (natoms : Int) (atoms : List (List Atom)) : Option (List ℚ) :=
  match each_rank (fun r l => pack_charges l (new_double sim r natoms)) 0 atoms with
  | none => none
  | some bufs => some (mpi_reduce_sum natoms bufs)

/-- The buffer `forces_reduced` of `send_forces`. -/
def gather_forces (sim : Sim) (natoms : Int) (atoms : List (List Atom)) : Option (List ℚ) :=
  match each_rank (fun r l => pack_forces (forceconv sim) l (new_double sim r (3 * natoms))) 0 atoms with
  | none => none
  | some bufs => some (mpi_reduce_sum (3 * natoms) bufs)

/-- Record a buffer sent by the master with `MDI_Send`. -/
def send_doubles (s : FixMDI) (v : List ℚ) : FixMDI := { s with sent := s.sent ++ [Reply.doubles v] }

/-- Record integers sent by the master with `MDI_Send`. -/
def send_ints (s : FixMDI) (v : List Int) : FixMDI := { s with sent := s.sent ++ [Reply.ints v] }

/-- `FixMDI::receive_coordinates`. A payload that is not `3*natoms` doubles is
the failed `MDI_Recv`. -/
def receive_coordinates (sim : Sim) (s : FixMDI) (m : Msg) (rest : List Msg) : Outcome :=
  if m.data.length ≠ (3 * s.natoms).toNat then
    Outcome.fatal "Unable to receive coordinates from driver" s rest
  else
    match each_rank (fun _ l => scatter_coords sim.posconv m.data l) 0 s.atoms with
    | none => ⟨Status.fault, s, rest⟩
    | some at1 => Outcome.ok { s with atoms := sim.remap at1 } rest

/-- `FixMDI::send_coordinates`. -/
def send_coordinates (sim : Sim) (s : FixMDI) (rest : List Msg) : Outcome :=
  match gather_coordinates sim s.natoms s.atoms with
  | none => ⟨Status.fault, s, rest⟩
  | some v => Outcome.ok (send_doubles s v) rest

/-- `FixMDI::send_charges`. -/
def send_charges (sim : Sim) (s : FixMDI) (rest : List Msg) : Outcome :=
  match gather_charges sim s.natoms s.atoms with
  | none => ⟨Status.fault, s, rest⟩
  | some v => Outcome.ok (send_doubles s v) rest

/-- `FixMDI::send_energy`: `pe = potential_energy*MDI_KELVIN_TO_HARTREE/force->boltz`. -/
def send_energy (sim : Sim) (s : FixMDI) (rest : List Msg) : Outcome :=
  Outcome.ok (send_doubles s [s.potential_energy * sim.potconv]) rest

/-- `FixMDI::send_types`: the master sends the first `natoms` entries of its
local array `atom->type`. -/
def send_types (s : FixMDI) (rest : List Msg) : Outcome :=
  let local0 := (s.atoms.headD []).map Atom.type
  if s.natoms.toNat ≤ local0.length then
    Outcome.ok (send_ints s (local0.take s.natoms.toNat)) rest
  else ⟨Status.fault, s, rest⟩

/-- `FixMDI::send_masses`: the master sends `ntypes+1` entries of `atom->mass`. -/
def send_masses (s : FixMDI) (rest : List Msg) : Outcome :=
  if (s.ntypes + 1).toNat ≤ s.mass.length then
    Outcome.ok (send_doubles s (s.mass.take (s.ntypes + 1).toNat)) rest
  else ⟨Status.fault, s, rest⟩

/-- `FixMDI::send_cell`: the nine cell values. -/
def send_cell (s : FixMDI) (rest : List Msg) : Outcome :=
  Outcome.ok (send_doubles s s.celldata) rest

/-- `FixMDI::setup`: `potential_energy = pe->compute_scalar()`. -/
def setup (sim : Sim) (s : FixMDI) : FixMDI :=
  { s with potential_energy := sim.pe_compute s.atoms }

/-- The calls `update->integrate->setup(1)` and `setup_minimal(1)`: the forces
are evaluated and the `setup` callback of the fix is invoked (the fix has no
other setup hook). -/
def integrate_setup (sim : Sim) (s : FixMDI) : FixMDI :=
  setup sim { s with atoms := sim.force_eval s.atoms }

/-- Copy the saved coordinates `x_buf` back, local index by local index. -/
def restore_x : List Atom → List Atom → List Atom
  | o :: os, c :: cs => { c with x0 := o.x0, x1 := o.x1, x2 := o.x2 } :: restore_x os cs
  | _, cs => cs

/-- `FixMDI::send_forces`: save the coordinates, evaluate the forces, gather
and send them, restore the coordinates. -/
def send_forces (sim : Sim) (s : FixMDI) (rest : List Msg) : Outcome :=
  let s1 := integrate_setup sim s
  match gather_forces sim s1.natoms s1.atoms with
  | none => ⟨Status.fault, s, rest⟩
  | some v =>
    Outcome.ok (send_doubles { s1 with atoms := List.zipWith restore_x s.atoms s1.atoms } v) rest

/-- `FixMDI::receive_forces`. -/
def receive_forces (sim : Sim) (s : FixMDI) (m : Msg) (rest : List Msg) : Outcome :=
  if m.data.length ≠ (3 * s.natoms).toNat then
    Outcome.fatal "Unable to receive atom forces to driver" s rest
  else
    match each_rank (fun _ l => scatter_forces (forceconv sim) m.data l) 0 s.atoms with
    | none => ⟨Status.fault, s, rest⟩
    | some at1 => Outcome.ok { s with atoms := at1 } rest

/-- `FixMDI::add_forces`: `forces[i] /= forceconv` and then
`add_force[j] = forces[j]` for `j < 3*natoms`; the copy needs `add_force` to
have at least `3*natoms` slots. -/
def add_forces (sim : Sim) (s : FixMDI) (m : Msg) (rest : List Msg) : Outcome :=
  if m.data.length ≠ (3 * s.natoms).toNat then
    Outcome.fatal "Unable to receive atom +forces to driver" s rest
  else if (3 * s.natoms).toNat ≤ s.add_force.length then
    Outcome.ok { s with add_force := m.data.map (fun v => v / forceconv sim)
                                      ++ s.add_force.drop (3 * s.natoms).toNat } rest
  else ⟨Status.fault, s, rest⟩

/-- Loop of `exchange_forces` on one rank: atoms of the group get
`f[i][k] += add_force[3*(tag[i]-1)+k]`. -/
def exchange_forces_rank (groupbit : Nat) (add_force : List ℚ) : List Atom → Option (List Atom)
  | [] => some []
  | a :: rest =>
    match exchange_forces_rank groupbit add_force rest with
    | none => none
    | some r =>
      if a.mask &&& groupbit ≠ 0 then
        match buf_read add_force (3 * (a.tag - 1) + 0), buf_read add_force (3 * (a.tag - 1) + 1),
            buf_read add_force (3 * (a.tag - 1) + 2) with
        | some v0, some v1, some v2 =>
          some ({ a with f0 := a.f0 + v0, f1 := a.f1 + v1, f2 := a.f2 + v2 } :: r)
        | _, _, _ => none
      else some (a :: r)

/-- `FixMDI::exchange_forces`. -/
def exchange_forces (s : FixMDI) : Option FixMDI :=
  match each_rank (fun _ l => exchange_forces_rank s.groupbit s.add_force l) 0 s.atoms with
  | none => none
  | some at1 => some { s with atoms := at1 }

/-! ## Engine state machine (`engine_mode` and the callbacks) -/

/-- The type of `engine_mode` once the evaluation budget is fixed; the
callbacks and handlers take the nested `engine_mode` as an argument. -/
abbrev EngineMode := Int → FixMDI → List Msg → Outcome

/-- The fix callbacks `setup`, `post_integrate`, `post_force`,
`min_pre_force`, `min_pre_reverse`, `min_post_force` and `end_of_step`. The
calls of `exchange_forces` in `setup`, `post_force` and `min_post_force` are
commented out in the source. -/
def callback (sim : Sim) (em : EngineMode) (c : Callback) (s : FixMDI) (inp : List Msg) : Outcome :=
  match c with
  | Callback.setup => Outcome.ok (setup sim s) inp
  | Callback.post_integrate => em 1 s inp
  | Callback.post_force => em 2 { s with potential_energy := sim.pe_compute s.atoms } inp
  | Callback.min_pre_force => em 1 s inp
  | Callback.min_pre_reverse => em 2 s inp
  | Callback.min_post_force => em 3 s inp
  | Callback.end_of_step =>
    if s.most_recent_init = 1 then Outcome.ok { s with current_node := 3 } inp
    else if s.most_recent_init = 2 then em 3 s inp
    else Outcome.ok s inp

/-- Run what an integrator or minimizer call does, in order. -/
def run_events (sim : Sim) (em : EngineMode) : List Event → FixMDI → List Msg → Outcome
  | [], s, inp => Outcome.ok s inp
  | Event.callback c :: es, s, inp =>
    (callback sim em c s inp).andThen (fun s1 r1 => run_events sim em es s1 r1)
  | Event.physics k :: es, s, inp =>
    run_events sim em es { s with atoms := sim.physics k s.atoms } inp

/-- `FixMDI::md_init`. -/
def md_init (sim : Sim) (s : FixMDI) (rest : List Msg) : Outcome :=
  if s.most_recent_init ≠ 0 then
    Outcome.fatal "Atomic propagation method already initialized" s rest
  else
    Outcome.ok (integrate_setup sim { s with current_node := -1, most_recent_init := 1 }) rest

/-- `FixMDI::md_setup`: `update->integrate->setup(1)`; the call is counted in
`md_setup_calls`. -/
def md_setup (sim : Sim) (s : FixMDI) : FixMDI :=
  { integrate_setup sim s with md_setup_calls := s.md_setup_calls + 1 }

/-- `FixMDI::timestep`; a call of `update->integrate->run(1)` is counted in
`run_calls` before it runs. -/
def timestep (sim : Sim) (em : EngineMode) (s : FixMDI) (rest : List Msg) : Outcome :=
  if s.most_recent_init = 1 then
    if s.current_node = -2 ∨ s.current_node = -1 ∨ s.current_node = 3 then
      run_events sim em sim.run { s with run_calls := s.run_calls + 1 } rest
    else Outcome.ok { s with local_exit_flag := true } rest
  else if s.most_recent_init = 2 then
    Outcome.ok { s with target_node := 1, local_exit_flag := true } rest
  else Outcome.ok s rest

/-- The call `update->minimize->setup()`: the forces are evaluated; no hook of
this fix is invoked (it has no `min_setup`). -/
def minimize_setup (sim : Sim) (s : FixMDI) : FixMDI :=
  { s with atoms := sim.force_eval s.atoms }

/-- `FixMDI::optg_init`. -/
def optg_init (sim : Sim) (em : EngineMode) (s : FixMDI) (rest : List Msg) : Outcome :=
  if s.most_recent_init ≠ 0 then
    Outcome.fatal "Atomic propagation method already initialized" s rest
  else
    run_events sim em sim.iterate
      { minimize_setup sim s with current_node := -1, most_recent_init := 2 } rest

/-- Condition of the inner `while` of the `ATOM_STEP` branch. -/
def atom_step_again (s : FixMDI) : Bool :=
  decide (s.target_node ≠ 0) && decide (s.target_node ≠ s.current_node) &&
    decide (s.most_recent_init = 1) && decide (s.current_node = 3) &&
    !s.exit_flag && !s.local_exit_flag

/-- The inner `while` of the `ATOM_STEP` branch: start another MD iteration
as long as the condition holds. -/
def atom_step_loop (sim : Sim) (em : EngineMode) : Nat → FixMDI → List Msg → Outcome
  | 0, s, rest => if atom_step_again s then ⟨Status.out_of_fuel, s, rest⟩ else Outcome.ok s rest
  | k + 1, s, rest =>
    if atom_step_again s then
      (timestep sim em s rest).andThen (fun s1 r1 => atom_step_loop sim em k s1 r1)
    else Outcome.ok s rest

/-- The `ATOM_STEP` branch of `engine_mode`. -/
def atom_step (sim : Sim) (em : EngineMode) (fuel : Nat) (s : FixMDI) (rest : List Msg) : Outcome :=
  let s1 := if s.current_node = -1 then md_setup sim s else s
  (timestep sim em { s1 with target_node := 1 } rest).andThen
    (fun s2 r2 => atom_step_loop sim em fuel s2 r2)

/-- The `@PRE-FORCES` branch of `engine_mode`. -/
def at_pre_forces (sim : Sim) (s : FixMDI) : FixMDI :=
  if s.current_node = -1 then { md_setup sim s with current_node := -2 }
  else { s with target_node := 2, local_exit_flag := true }

/-- The `@FORCES` branch of `engine_mode`. -/
def at_forces (sim : Sim) (s : FixMDI) : FixMDI :=
  if s.most_recent_init = 1 ∧ s.current_node = -1 then { md_setup sim s with current_node := 3 }
  else if s.current_node = -2 then { s with current_node := 3 }
  else { s with target_node := 3, local_exit_flag := true }

/-- The `if`/`else if` chain of `engine_mode` on one received command. -/
def dispatch (sim : Sim) (em : EngineMode) (fuel : Nat) (s : FixMDI) (m : Msg)
    (rest : List Msg) : Outcome :=
  if m.command = "STATUS      " then
    Outcome.ok { s with sent := s.sent ++ [Reply.command "READY"] } rest
  else if m.command = ">NATOMS" then Outcome.ok { s with natoms := m.ival } rest
  else if m.command = "<NATOMS" then Outcome.ok (send_ints s [s.natoms]) rest
  else if m.command = "<NTYPES" then Outcome.ok (send_ints s [s.ntypes]) rest
  else if m.command = "<TYPES" then send_types s rest
  else if m.command = "<MASSES" then send_masses s rest
  else if m.command = "<CELL" then send_cell s rest
  else if m.command = ">COORDS" then receive_coordinates sim s m rest
  else if m.command = "<COORDS" then send_coordinates sim s rest
  else if m.command = "<CHARGES" then send_charges sim s rest
  else if m.command = "<ENERGY" then send_energy sim s rest
  else if m.command = "<FORCES" then send_forces sim s rest
  else if m.command = ">FORCES" then receive_forces sim s m rest
  else if m.command = "+PRE-FORCES" then add_forces sim s m rest
  else if m.command = "MD_INIT" then md_init sim s rest
  else if m.command = "OPTG_INIT" then optg_init sim em s rest
  else if m.command = "ATOM_STEP" then atom_step sim em fuel s rest
  else if m.command = "@PRE-FORCES" then Outcome.ok (at_pre_forces sim s) rest
  else if m.command = "@FORCES" then Outcome.ok (at_forces sim s) rest
  else if m.command = "EXIT" then Outcome.ok { s with exit_flag := true } rest
  else Outcome.fatal "Unknown command from driver" s rest

/-- The check at the end of the loop body: a target node other than the
current node forces a local exit. -/
def check_target (s : FixMDI) : FixMDI :=
  if s.target_node ≠ 0 ∧ s.target_node ≠ s.current_node then { s with local_exit_flag := true }
  else s

/-- The `while (not exit_flag and not local_exit_flag)` loop of `engine_mode`
followed by `local_exit_flag = false`. -/
def engine_loop (sim : Sim) (em : EngineMode) : Nat → FixMDI → List Msg → Outcome
  | 0, s, inp =>
    if s.exit_flag || s.local_exit_flag then Outcome.ok { s with local_exit_flag := false } inp
    else ⟨Status.out_of_fuel, s, inp⟩
  | k + 1, s, inp =>
    if s.exit_flag || s.local_exit_flag then Outcome.ok { s with local_exit_flag := false } inp
    else
      match inp with
      | [] => ⟨Status.blocked, s, []⟩
      | m :: rest =>
        (dispatch sim em k s m rest).andThen
          (fun s1 r1 => engine_loop sim em k (check_target s1) r1)

/-- `FixMDI::engine_mode(int node)`. The budget bounds the nesting depth of
`engine_mode` calls and the number of iterations of each loop. -/
def engine_mode (sim : Sim) : Nat → EngineMode
  | 0, _, s, inp => ⟨Status.out_of_fuel, s, inp⟩
  | n + 1, node, s, inp =>
    engine_loop sim (engine_mode sim n) (n + 1) (check_target { s with current_node := node }) inp

/-- `FixMDI::FixMDI`: `add_force` gets `3*natoms` zeros, `most_recent_init`
and both exit flags are cleared; `current_node`, `target_node` and
`potential_energy` are not set by the constructor, so their starting values are
arguments. -/
def FixMDI.create (current_node target_node natoms ntypes : Int) (groupbit : Nat)
    (atoms : List (List Atom)) (mass celldata : List ℚ) (potential_energy : ℚ) : FixMDI :=
  { current_node := current_node, target_node := target_node, most_recent_init := 0,
    exit_flag := false, local_exit_flag := false, natoms := natoms, ntypes := ntypes,
    groupbit := groupbit, add_force := List.replicate (3 * natoms).toNat 0, atoms := atoms,
    mass := mass, celldata := celldata, potential_energy := potential_energy, sent := [],
    md_setup_calls := 0, run_calls := 0 }

/-- Modelled from the spec: the integrator is an external collaborator that
re-enters the fix at its callback sites. For the MD masks of `FixMDI::setmask`
one step of `run(1)` is: integrate, `post_integrate`, force computation,
`post_force`, final integrate, `end_of_step`. -/
def verlet_run : List Event :=
  [Event.physics 0, Event.callback Callback.post_integrate, Event.physics 1,
   Event.callback Callback.post_force, Event.physics 2, Event.callback Callback.end_of_step]

/-! ## Predicates used in the statements -/

/-- What every call keeps: it reads the driver input front to back, never
clears `exit_flag` and never resets `most_recent_init` to zero. -/
def Keeps (s : FixMDI) (inp : List Msg) (o : Outcome) : Prop :=
  o.rest.length ≤ inp.length ∧ (s.exit_flag = true → o.state.exit_flag = true) ∧
    (s.most_recent_init ≠ 0 → o.state.most_recent_init ≠ 0)

/-- The property of a nested `engine_mode` that the handlers rely on. -/
def KeepsAll (em : EngineMode) : Prop := ∀ node s inp, Keeps s inp (em node s inp)

/-! ## Concrete data used to instantiate the theorems -/

/-- A collaborator set with unit factors, a zeroed heap, no physics, the Verlet
schedule for `run(1)` and one minimizer force evaluation for `iterate`. -/
def demo_sim : Sim where
  posconv := 1
  potconv := 1
  heap := fun _ _ => 0
  pe_compute := fun _ => 0
  physics := fun _ a => a
  force_eval := fun a => a
  remap := fun a => a
  run := verlet_run
  iterate := [Event.callback Callback.min_pre_force, Event.callback Callback.min_pre_reverse,
    Event.callback Callback.min_post_force]

/-- Two atoms on two ranks: rank 0 owns tag 2, rank 1 owns tag 1. -/
def demo_atoms : List (List Atom) :=
  [[⟨2, 1, 1, 4, 5, 6, 0, 0, 0, 7⟩], [⟨1, 1, 1, 1, 2, 3, 0, 0, 0, 8⟩]]

/-- A freshly constructed engine for `demo_atoms`, with `current_node` and
`target_node` starting at zero. -/
def demo_engine : FixMDI := FixMDI.create 0 0 2 1 1 demo_atoms [0, 1] [0, 0, 0, 1, 1, 1, 0, 0, 0] 0

/-- The engine `demo_engine` with a pending request for node 3. -/
def demo_pending : FixMDI := { demo_engine with target_node := 3 }

/-- The tokens compared against in the `if`/`else if` chain of `engine_mode`,
in source order. -/
def recognised : List String :=
  ["STATUS      ", ">NATOMS", "<NATOMS", "<NTYPES", "<TYPES", "<MASSES", "<CELL", ">COORDS",
   "<COORDS", "<CHARGES", "<ENERGY", "<FORCES", ">FORCES", "+PRE-FORCES", "MD_INIT", "OPTG_INIT",
   "ATOM_STEP", "@PRE-FORCES", "@FORCES", "EXIT"]

/-- The message of the double-initialisation error of `md_init` and
`optg_init`. -/
def already_init : String := "Atomic propagation method already initialized"

/-! ## Orchestration (`driver.cpp`)

The functions of `CommandMDI` call `mdi_fix->engine_mode("@NODE")`, which returns
a command, and read `mdi_fix->command`. They are embedded over what they
observe: the list of commands the engine holds each time the function looks at
one, in order. -/

/-- Result of a sub-run function: its `return` value or `error->all`. -/
inductive SubRun where
  | returned (code : Int)
  | error (msg : String)
deriving DecidableEq

/-- The `while (true)` loop at the end of `CommandMDI::mdi_md`: after each
`run(1)` the command `mdi_fix->command` is looked at. -/
def mdi_md_loop : List String → Option Int
  | [] => none
  | command :: later =>
    if command = "EXIT_SIM" then some 0
    else if command = "EXIT" then some 1
    else mdi_md_loop later

/-- `CommandMDI::mdi_md`. The first observation is what
`engine_mode("@INIT_MD")` returns, the second is `mdi_fix->command` after
`engine_mode("@FORCES")`, the later ones are `mdi_fix->command` after each step.
The result is `none` while the function has not returned. -/
def mdi_md : List String → Option Int
  | [] => none
  | command :: later =>
    if command = "MD_EXIT" then some 0
    else if command = "EXIT" then some 1
    else
      match later with
      | [] => none
      | command1 :: later1 =>
        if command1 = "EXIT_SIM" then some 0
        else if command1 = "EXIT" then some 1
        else mdi_md_loop later1

/-- Modelled from the spec: the function `engine_mode(const char*)` and the
member `command` of the fix are not among the sources. The `char*` that
`engine_mode` returns is taken to be the command buffer of the fix, the one
`driver.cpp` reads as `mdi_fix->command` ("the most recent command the MDI
engine received"); a `strcmp` through that pointer after phase `i` of a sub-run
reads the `i`-th observation ("checking the last command after each phase"). The
result is `none` while that phase has not ended. -/
def last_command (observed : List String) (phase : Nat) : Option String :=
  observed[phase]?

/-- `CommandMDI::mdi_optg`. The local `command` is the pointer returned by
`engine_mode("@INIT_OPTG")`; it is compared with `EXIT_SIM` and `EXIT` right
after that call (phase 0), after `update->minimize->setup()` (phase 1) and after
`update->minimize->iterate(..)` (phase 2), each time through the pointer, and
the final `error->all` prints what it points to. -/
def mdi_optg (observed : List String) : Option SubRun :=
  match last_command observed 0 with
  | none => none
  | some c_init =>
    if c_init = "EXIT_SIM" then some (SubRun.returned 0)
    else if c_init = "EXIT" then some (SubRun.returned 1)
    else
      match last_command observed 1 with
      | none => none
      | some c_setup =>
        if c_setup = "EXIT_SIM" then some (SubRun.returned 0)
        else if c_setup = "EXIT" then some (SubRun.returned 1)
        else
          match last_command observed 2 with
          | none => none
          | some c_iterate =>
            if c_iterate = "EXIT_SIM" then some (SubRun.returned 0)
            else if c_iterate = "EXIT" then some (SubRun.returned 1)
            else some (SubRun.error
              ("MDI reached end of OPTG simulation with invalid command: " ++ c_iterate))

/-- One resumption of the engine at `@DEFAULT` by `CommandMDI::command`: the
command it returns and what the sub-run started for it observes. -/
structure Resume where
  command : String
  observed : List String
deriving DecidableEq

/-- How `CommandMDI::command` ends: it returns, it aborts through
`error->all`, or it is still waiting for the driver. `unused` lists the
resumptions that were not reached. -/
inductive Session where
  | returned (unused : List Resume)
  | error (msg : String) (unused : List Resume)
  | waiting
deriving DecidableEq

/-- The first `if` of the loop body of `CommandMDI::command`:
`if (command is @INIT_MD) then received_exit = mdi_md(); return when it is 1`.
The result is `none` while `mdi_md` has not returned, `some true` for the
`return`. -/
def command_init_md (r : Resume) : Option Bool :=
  if r.command = "@INIT_MD" then
    match mdi_md r.observed with
    | none => none
    | some received_exit => some (decide (received_exit = 1))
  else some false

/-- The loop `while (true)` of `CommandMDI::command`. The `if` on `@INIT_MD`
is followed by a separate `if`/`else if`/`else` on `@INIT_OPTG`, `EXIT` and
everything else. -/
def command_loop : List Resume → Session
  | [] => Session.waiting
  | r :: rest =>
    match command_init_md r with
    | none => Session.waiting
    | some true => Session.returned rest
    | some false =>
      if r.command = "@INIT_OPTG" then
        match mdi_optg r.observed with
        | none => Session.waiting
        | some (SubRun.returned received_exit) =>
          if received_exit = 1 then Session.returned rest else command_loop rest
        | some (SubRun.error msg) => Session.error msg rest
      else if r.command = "EXIT" then Session.returned rest
      else Session.error ("MDI received unsupported command: " ++ r.command) rest

/-- `CommandMDI::command`: the argument and atom-ID checks, then the loop. -/
def command (narg : Int) (tag_enable tag_consecutive : Int) (resumes : List Resume) : Session :=
  if narg > 0 then Session.error "Illegal MDI command" resumes
  else if tag_enable = 0 then Session.error "Cannot use MDI command without atom IDs" resumes
  else if tag_consecutive = 0 then
    Session.error "MDI command requires consecutive atom IDs" resumes
  else command_loop resumes

/-- Which observation ends `mdi_md`, in the words of the specification: `EXIT`
at any stage gives 1, `MD_EXIT` at the `@INIT_MD` stage (index 0) gives 0,
`EXIT_SIM` at the `@FORCES` stage or after a step (index above 0) gives 0, and
nothing else ends the sub-run. -/
def md_terminal (i : Nat) (c : String) : Option Int :=
  if c = "EXIT" then some 1
  else if i = 0 ∧ c = "MD_EXIT" then some 0
  else if 0 < i ∧ c = "EXIT_SIM" then some 0
  else none

/-- The optimization sub-run in the words of the specification: the last
command is looked at after `@INIT_OPTG`, after the setup and after the first
iterate call. -/
def mdi_optg_spec : List String → Option SubRun
  | c_init :: c_setup :: c_iterate :: _ =>
    if c_init = "EXIT_SIM" then some (SubRun.returned 0)
    else if c_init = "EXIT" then some (SubRun.returned 1)
    else if c_setup = "EXIT_SIM" then some (SubRun.returned 0)
    else if c_setup = "EXIT" then some (SubRun.returned 1)
    else if c_iterate = "EXIT_SIM" then some (SubRun.returned 0)
    else if c_iterate = "EXIT" then some (SubRun.returned 1)
    else some (SubRun.error
      ("MDI reached end of OPTG simulation with invalid command: " ++ c_iterate))
  | _ => none

/-- The four driver commands of scenario 1. -/
def scenario1 : List Msg :=
  [Msg.of "MD_INIT", Msg.of "ATOM_STEP", Msg.of "<ENERGY", Msg.of "EXIT_SIM"]

/-- The MD sub-run in the words of the specification: the observations are
looked at in order, starting at index `i`, and the first one that is terminal
for its index decides the result. -/
def mdi_md_spec : Nat → List String → Option Int
  | _, [] => none
  | i, c :: later =>
    match md_terminal i c with
    | some r => some r
    | none => mdi_md_spec (i + 1) later

/-- The message `+PRE-FORCES` with a buffer of all 1.0 for two atoms. -/
def pre_forces_ones : Msg := ⟨"+PRE-FORCES", 0, [1, 1, 1, 1, 1, 1]⟩

/-- The engine `demo_engine` after it has dispatched `pre_forces_ones`. -/
def demo_forced : FixMDI :=
  (dispatch demo_sim (engine_mode demo_sim 1) 1 demo_engine pre_forces_ones []).state

/-- The collaborators of `demo_sim` with a heap that holds 5 in every slot. -/
def dirty_sim : Sim := { demo_sim with heap := fun _ _ => 5 }

/-! ## Concrete data for the marshalling claims -/

/-- The message `>COORDS` with the positions `[1,..,6]` of two atoms. -/
def coords_msg : Msg := ⟨">COORDS", 0, [1, 2, 3, 4, 5, 6]⟩

/-- One rank that holds two atoms in the local order tag 2, tag 1, with the
types 5 and 7. -/
def swapped_atoms : List (List Atom) :=
  [[⟨2, 1, 5, 4, 5, 6, 0, 0, 0, 7⟩, ⟨1, 1, 7, 1, 2, 3, 0, 0, 0, 8⟩]]

/-- A freshly constructed engine for `swapped_atoms`. -/
def swapped_engine : FixMDI :=
  FixMDI.create 0 0 2 7 1 swapped_atoms [0, 1, 1, 1, 1, 1, 1, 1] [0, 0, 0, 1, 1, 1, 0, 0, 0] 0

/-- The message `>NATOMS` with the atom count 3. -/
def natoms_three : Msg := ⟨">NATOMS", 3, []⟩

/-- The message `+PRE-FORCES` with nine values, the buffer for three atoms. -/
def pre_forces_nine : Msg := ⟨"+PRE-FORCES", 0, [1, 1, 1, 1, 1, 1, 1, 1, 1]⟩

/-- The engine `demo_engine` after a successful `MD_INIT`. -/
def demo_md : FixMDI := (md_init demo_sim demo_engine []).state

/-! ## Instrumented engine for the entry condition -/

/-- The function `engine_mode` with an assertion at its entry: a call that
finds `local_exit_flag` set is reported as `fault`. Every nested call made by
the handlers goes through the same assertion. -/
def engine_mode_checked (sim : Sim) : Nat → EngineMode
  | 0, _, s, inp => ⟨Status.out_of_fuel, s, inp⟩
  | n + 1, node, s, inp =>
    if s.local_exit_flag = true then ⟨Status.fault, s, inp⟩
    else
      engine_loop sim (engine_mode_checked sim n) (n + 1)
        (check_target { s with current_node := node }) inp

/-! ## Predicates on the bookkeeping counters -/

/-- What a call that handles no first-iteration command keeps: the run counter
does not decrease and, once an initialisation has happened,
`most_recent_init` and the `md_setup` counter stay as they are and
`current_node` does not return to -1. -/
def Quiet (s : FixMDI) (o : Outcome) : Prop :=
  s.run_calls ≤ o.state.run_calls ∧
    (s.most_recent_init ≠ 0 →
      o.state.most_recent_init = s.most_recent_init ∧
      o.state.md_setup_calls = s.md_setup_calls ∧
      (s.current_node ≠ -1 → o.state.current_node ≠ -1))

/-- What every command handler keeps: as `Quiet`, except that the `md_setup`
counter is kept only when the handler starts at a node other than -1. -/
def Steady (s : FixMDI) (o : Outcome) : Prop :=
  s.run_calls ≤ o.state.run_calls ∧
    (s.most_recent_init ≠ 0 →
      o.state.most_recent_init = s.most_recent_init ∧
      (s.current_node ≠ -1 →
        o.state.current_node ≠ -1 ∧ o.state.md_setup_calls = s.md_setup_calls))

/-- The property of a nested `engine_mode` entered at a node other than -1. -/
def QuietAll (em : EngineMode) : Prop :=
  ∀ node s inp, node ≠ -1 → Quiet s (em node s inp)

/-! ## Predicates for the gather of coordinates -/

/-- Slot `j` of a `3N` buffer belongs to an atom of the list: the tag of slot
`j` is `j/3 + 1`. -/
def owns (l : List Atom) (j : Nat) : Prop := ∃ a ∈ l, ((j / 3 : Nat) : Int) + 1 = a.tag

/-- The buffer `b` holds the value of `B` in the slots of `S` and zero in all
other slots. -/
def Agrees (B : List ℚ) (S : Nat → Prop) (b : List ℚ) : Prop :=
  b.length = B.length ∧
    ∀ j, j < B.length → (S j → b[j]? = B[j]?) ∧ (¬ S j → b[j]? = some 0)

/-! ## General facts about the engine -/

theorem Keeps.trans {s : FixMDI} {inp : List Msg} {o o2 : Outcome}
    (h1 : Keeps s inp o) (h2 : Keeps o.state o.rest o2) : Keeps s inp o2 :=
  ⟨le_trans h2.1 h1.1, fun h => h2.2.1 (h1.2.1 h), fun h => h2.2.2 (h1.2.2 h)⟩

theorem Keeps.andThen {s : FixMDI} {inp : List Msg} {o : Outcome}
    {k : FixMDI → List Msg → Outcome} (h1 : Keeps s inp o)
    (h2 : ∀ s1 r1, Keeps s1 r1 (k s1 r1)) : Keeps s inp (o.andThen k) := by
  unfold Outcome.andThen
  split
  · exact h1.trans (h2 _ _)
  · exact h1

theorem keeps_of_fields {s s1 : FixMDI} {inp : List Msg} (st : Status)
    (he : s1.exit_flag = s.exit_flag) (hi : s1.most_recent_init = s.most_recent_init) :
    Keeps s inp ⟨st, s1, inp⟩ :=
  ⟨le_refl _, fun h => by simpa [he] using h, fun h => by simpa [hi] using h⟩

theorem keeps_receive_coordinates (sim : Sim) (s : FixMDI) (m : Msg) (rest : List Msg) :
    Keeps s rest (receive_coordinates sim s m rest) := by
  unfold receive_coordinates
  split
  · exact keeps_of_fields _ rfl rfl
  · split <;> exact keeps_of_fields _ rfl rfl

theorem keeps_send_coordinates (sim : Sim) (s : FixMDI) (rest : List Msg) :
    Keeps s rest (send_coordinates sim s rest) := by
  unfold send_coordinates
  split <;> exact keeps_of_fields _ rfl rfl

theorem keeps_send_charges (sim : Sim) (s : FixMDI) (rest : List Msg) :
    Keeps s rest (send_charges sim s rest) := by
  unfold send_charges
  split <;> exact keeps_of_fields _ rfl rfl

theorem keeps_send_forces (sim : Sim) (s : FixMDI) (rest : List Msg) :
    Keeps s rest (send_forces sim s rest) := by
  unfold send_forces
  simp only
  split <;> exact keeps_of_fields _ rfl rfl

theorem keeps_receive_forces (sim : Sim) (s : FixMDI) (m : Msg) (rest : List Msg) :
    Keeps s rest (receive_forces sim s m rest) := by
  unfold receive_forces
  split
  · exact keeps_of_fields _ rfl rfl
  · split <;> exact keeps_of_fields _ rfl rfl

theorem keeps_add_forces (sim : Sim) (s : FixMDI) (m : Msg) (rest : List Msg) :
    Keeps s rest (add_forces sim s m rest) := by
  unfold add_forces
  split
  · exact keeps_of_fields _ rfl rfl
  · split <;> exact keeps_of_fields _ rfl rfl

theorem keeps_send_types (s : FixMDI) (rest : List Msg) : Keeps s rest (send_types s rest) := by
  unfold send_types
  simp only
  split <;> exact keeps_of_fields _ rfl rfl

theorem keeps_send_masses (s : FixMDI) (rest : List Msg) : Keeps s rest (send_masses s rest) := by
  unfold send_masses
  split <;> exact keeps_of_fields _ rfl rfl

theorem keeps_md_init (sim : Sim) (s : FixMDI) (rest : List Msg) :
    Keeps s rest (md_init sim s rest) := by
  unfold md_init
  split
  · exact keeps_of_fields _ rfl rfl
  · exact ⟨le_refl _, fun h => h, fun _ => by simp [Outcome.ok, integrate_setup, setup]⟩

theorem keeps_callback (sim : Sim) {em : EngineMode} (hem : KeepsAll em) (c : Callback)
    (s : FixMDI) (inp : List Msg) : Keeps s inp (callback sim em c s inp) := by
  unfold callback
  cases c <;> simp only
  · exact keeps_of_fields _ rfl rfl
  · exact hem _ _ _
  · exact hem 2 { s with potential_energy := sim.pe_compute s.atoms } inp
  · exact hem _ _ _
  · exact hem _ _ _
  · exact hem _ _ _
  · split
    · exact keeps_of_fields _ rfl rfl
    · split
      · exact hem _ _ _
      · exact keeps_of_fields _ rfl rfl

theorem keeps_run_events (sim : Sim) {em : EngineMode} (hem : KeepsAll em) (es : List Event) :
    ∀ s inp, Keeps s inp (run_events sim em es s inp) := by
  induction es with
  | nil => intro s inp; exact keeps_of_fields _ rfl rfl
  | cons e es ih =>
    intro s inp
    cases e with
    | callback c =>
      simp only [run_events]
      exact (keeps_callback sim hem c s inp).andThen ih
    | physics k =>
      simp only [run_events]
      exact ih { s with atoms := sim.physics k s.atoms } inp

theorem keeps_timestep (sim : Sim) {em : EngineMode} (hem : KeepsAll em) (s : FixMDI)
    (rest : List Msg) : Keeps s rest (timestep sim em s rest) := by
  unfold timestep
  split
  · split
    · exact keeps_run_events sim hem _ _ _
    · exact keeps_of_fields _ rfl rfl
  · split <;> exact keeps_of_fields _ rfl rfl

theorem keeps_optg_init (sim : Sim) {em : EngineMode} (hem : KeepsAll em) (s : FixMDI)
    (rest : List Msg) : Keeps s rest (optg_init sim em s rest) := by
  unfold optg_init
  split
  · exact keeps_of_fields _ rfl rfl
  · have h := keeps_run_events sim hem sim.iterate
      { minimize_setup sim s with current_node := -1, most_recent_init := 2 } rest
    exact ⟨h.1, h.2.1, fun _ => h.2.2 (by simp)⟩

theorem keeps_atom_step_loop (sim : Sim) {em : EngineMode} (hem : KeepsAll em) (k : Nat) :
    ∀ s rest, Keeps s rest (atom_step_loop sim em k s rest) := by
  induction k with
  | zero => intro s rest; unfold atom_step_loop; split <;> exact keeps_of_fields _ rfl rfl
  | succ k ih =>
    intro s rest
    unfold atom_step_loop
    split
    · exact (keeps_timestep sim hem s rest).andThen ih
    · exact keeps_of_fields _ rfl rfl

theorem keeps_atom_step (sim : Sim) {em : EngineMode} (hem : KeepsAll em) (k : Nat) (s : FixMDI)
    (rest : List Msg) : Keeps s rest (atom_step sim em k s rest) := by
  unfold atom_step
  simp only
  have h := (keeps_timestep sim hem
    { (if s.current_node = -1 then md_setup sim s else s) with target_node := 1 } rest).andThen
      (keeps_atom_step_loop sim hem k)
  refine ⟨h.1, fun he => h.2.1 ?_, fun hi => h.2.2 ?_⟩
  · split <;> simpa [md_setup, integrate_setup, setup] using he
  · split <;> simpa [md_setup, integrate_setup, setup] using hi

theorem keeps_at_pre_forces (sim : Sim) (s : FixMDI) (rest : List Msg) :
    Keeps s rest (Outcome.ok (at_pre_forces sim s) rest) := by
  unfold at_pre_forces
  split <;> exact keeps_of_fields _ rfl rfl

theorem keeps_at_forces (sim : Sim) (s : FixMDI) (rest : List Msg) :
    Keeps s rest (Outcome.ok (at_forces sim s) rest) := by
  unfold at_forces
  split
  · exact keeps_of_fields _ rfl rfl
  · split <;> exact keeps_of_fields _ rfl rfl

theorem ite_pred {α : Type} (P : α → Prop) {c : Prop} [Decidable c] {a b : α}
    (ha : P a) (hb : P b) : P (if c then a else b) := by
  split <;> assumption

theorem keeps_dispatch (sim : Sim) {em : EngineMode} (hem : KeepsAll em) (k : Nat) (s : FixMDI)
    (m : Msg) (rest : List Msg) : Keeps s rest (dispatch sim em k s m rest) := by
  unfold dispatch
  refine ite_pred (Keeps s rest) (keeps_of_fields _ rfl rfl) ?_
  refine ite_pred (Keeps s rest) (keeps_of_fields _ rfl rfl) ?_
  refine ite_pred (Keeps s rest) (keeps_of_fields _ rfl rfl) ?_
  refine ite_pred (Keeps s rest) (keeps_of_fields _ rfl rfl) ?_
  refine ite_pred (Keeps s rest) (keeps_send_types _ _) ?_
  refine ite_pred (Keeps s rest) (keeps_send_masses _ _) ?_
  refine ite_pred (Keeps s rest) (keeps_of_fields _ rfl rfl) ?_
  refine ite_pred (Keeps s rest) (keeps_receive_coordinates _ _ _ _) ?_
  refine ite_pred (Keeps s rest) (keeps_send_coordinates _ _ _) ?_
  refine ite_pred (Keeps s rest) (keeps_send_charges _ _ _) ?_
  refine ite_pred (Keeps s rest) (keeps_of_fields _ rfl rfl) ?_
  refine ite_pred (Keeps s rest) (keeps_send_forces _ _ _) ?_
  refine ite_pred (Keeps s rest) (keeps_receive_forces _ _ _ _) ?_
  refine ite_pred (Keeps s rest) (keeps_add_forces _ _ _ _) ?_
  refine ite_pred (Keeps s rest) (keeps_md_init _ _ _) ?_
  refine ite_pred (Keeps s rest) (keeps_optg_init sim hem _ _) ?_
  refine ite_pred (Keeps s rest) (keeps_atom_step sim hem _ _ _) ?_
  refine ite_pred (Keeps s rest) (keeps_at_pre_forces _ _ _) ?_
  refine ite_pred (Keeps s rest) (keeps_at_forces _ _ _) ?_
  refine ite_pred (Keeps s rest) (⟨le_refl _, fun _ => rfl, fun hi => hi⟩) ?_
  exact keeps_of_fields _ rfl rfl

theorem keeps_check_target (s : FixMDI) :
    (check_target s).exit_flag = s.exit_flag ∧
      (check_target s).most_recent_init = s.most_recent_init := by
  unfold check_target
  split <;> exact ⟨rfl, rfl⟩

theorem keeps_engine_loop (sim : Sim) {em : EngineMode} (hem : KeepsAll em) (k : Nat) :
    ∀ s inp, Keeps s inp (engine_loop sim em k s inp) := by
  induction k with
  | zero => intro s inp; unfold engine_loop; split <;> exact keeps_of_fields _ rfl rfl
  | succ k ih =>
    intro s inp
    unfold engine_loop
    split
    · exact keeps_of_fields _ rfl rfl
    · cases inp with
      | nil => exact keeps_of_fields _ rfl rfl
      | cons m rest =>
        have hd := keeps_dispatch sim hem k s m rest
        have h : Keeps s rest ((dispatch sim em k s m rest).andThen
            (fun s1 r1 => engine_loop sim em k (check_target s1) r1)) :=
          hd.andThen (fun s1 r1 =>
            ⟨(ih _ _).1, fun he => (ih _ _).2.1 (by rw [(keeps_check_target s1).1]; exact he),
              fun hi => (ih _ _).2.2 (by rw [(keeps_check_target s1).2]; exact hi)⟩)
        exact ⟨le_trans h.1 (Nat.le_succ _), h.2.1, h.2.2⟩

theorem keeps_engine_mode (sim : Sim) (n : Nat) : KeepsAll (engine_mode sim n) := by
  induction n with
  | zero => intro node s inp; exact keeps_of_fields _ rfl rfl
  | succ n ih =>
    intro node s inp
    have h := keeps_engine_loop sim ih (n + 1) (check_target { s with current_node := node }) inp
    have hc := keeps_check_target { s with current_node := node }
    exact ⟨h.1, fun he => h.2.1 (by rw [hc.1]; exact he), fun hi => h.2.2 (by rw [hc.2]; exact hi)⟩

/-! ## C1: re-entry deferral -/

theorem engine_mode_deferred (sim : Sim) (n : Nat) (e : Int) (s : FixMDI) (inp : List Msg)
    (ht : s.target_node ≠ 0) (he : e ≠ s.target_node) :
    engine_mode sim (n + 1) e s inp =
      Outcome.ok { s with current_node := e, local_exit_flag := false } inp := by
  have he2 : ¬ s.target_node = e := fun h => he h.symm
  simp [engine_mode, engine_loop, check_target, ht, he2]

theorem engine_mode_enter (sim : Sim) (n : Nat) (e : Int) (s : FixMDI) (inp : List Msg)
    (hexit : s.exit_flag = false) (hloc : s.local_exit_flag = false)
    (h : s.target_node = 0 ∨ s.target_node = e) :
    engine_mode sim (n + 1) e s inp =
      match inp with
      | [] => ⟨Status.blocked, { s with current_node := e }, []⟩
      | m :: rest =>
        (dispatch sim (engine_mode sim n) n { s with current_node := e } m rest).andThen
          (fun s1 r1 => engine_loop sim (engine_mode sim n) n (check_target s1) r1) := by
  have hc : check_target { s with current_node := e } = { s with current_node := e } := by
    unfold check_target
    rcases h with h | h <;> simp [h]
  simp only [engine_mode, hc]
  cases inp <;> simp [engine_loop, hexit, hloc]

theorem rest_lt_of_consumed (sim : Sim) (n : Nat) (s : FixMDI) (m : Msg) (rest : List Msg) :
    ((dispatch sim (engine_mode sim n) n s m rest).andThen
      (fun s1 r1 => engine_loop sim (engine_mode sim n) n (check_target s1) r1)).rest.length
      < (m :: rest).length := by
  have hd := keeps_dispatch sim (keeps_engine_mode sim n) n s m rest
  have h := hd.andThen (k := fun s1 r1 => engine_loop sim (engine_mode sim n) n (check_target s1) r1)
    (fun s1 r1 => ⟨(keeps_engine_loop sim (keeps_engine_mode sim n) n (check_target s1) r1).1,
      fun he => (keeps_engine_loop sim (keeps_engine_mode sim n) n (check_target s1) r1).2.1
        (by rw [(keeps_check_target s1).1]; exact he),
      fun hi => (keeps_engine_loop sim (keeps_engine_mode sim n) n (check_target s1) r1).2.2
        (by rw [(keeps_check_target s1).2]; exact hi)⟩)
  exact Nat.lt_succ_of_le h.1

/-- C1 (re-entry deferral). Let `exit_flag` be false and a target node
`t ≠ 0` be pending. A call `engine_mode(e)` with `e ≠ t` returns at once with
the driver input untouched, `current_node = e`, `local_exit_flag = false` and
every other member unchanged. When `local_exit_flag` is clear at the call (as it
is at every call, the flag being cleared at each return) and `e = t`, the call
waits in the receive when the driver has sent nothing and otherwise receives the
first command and dispatches it. Hence the call returns with nothing received
if and only if `e ≠ t`. -/
theorem C1_reentry_deferral (sim : Sim) (n : Nat) (e : Int) (s : FixMDI) (inp : List Msg)
    (hexit : s.exit_flag = false) (ht : s.target_node ≠ 0) :
    (e ≠ s.target_node →
      engine_mode sim (n + 1) e s inp =
        Outcome.ok { s with current_node := e, local_exit_flag := false } inp) ∧
    (s.local_exit_flag = false → e = s.target_node →
      (inp = [] →
        engine_mode sim (n + 1) e s inp = ⟨Status.blocked, { s with current_node := e }, []⟩) ∧
      (∀ m rest, inp = m :: rest →
        engine_mode sim (n + 1) e s inp =
          (dispatch sim (engine_mode sim n) n { s with current_node := e } m rest).andThen
            (fun s1 r1 => engine_loop sim (engine_mode sim n) n (check_target s1) r1) ∧
        (engine_mode sim (n + 1) e s inp).rest.length < inp.length)) ∧
    (s.local_exit_flag = false →
      (((engine_mode sim (n + 1) e s inp).status = Status.ok ∧
        (engine_mode sim (n + 1) e s inp).rest = inp) ↔ e ≠ s.target_node)) := by
  have hA := engine_mode_deferred sim n e s inp ht
  have hB : s.local_exit_flag = false → e = s.target_node →
      (inp = [] →
        engine_mode sim (n + 1) e s inp = ⟨Status.blocked, { s with current_node := e }, []⟩) ∧
      (∀ m rest, inp = m :: rest →
        engine_mode sim (n + 1) e s inp =
          (dispatch sim (engine_mode sim n) n { s with current_node := e } m rest).andThen
            (fun s1 r1 => engine_loop sim (engine_mode sim n) n (check_target s1) r1) ∧
        (engine_mode sim (n + 1) e s inp).rest.length < inp.length) := by
    intro hloc he
    have hen := engine_mode_enter sim n e s inp hexit hloc (Or.inr he.symm)
    constructor
    · intro hi
      subst hi
      exact hen
    · intro m rest hi
      subst hi
      refine ⟨hen, ?_⟩
      rw [hen]
      exact rest_lt_of_consumed sim n _ m rest
  refine ⟨hA, hB, ?_⟩
  intro hloc
  constructor
  · intro ⟨hst, hrest⟩ he
    cases inp with
    | nil =>
      have := (hB hloc he).1 rfl
      rw [this] at hst
      cases hst
    | cons m rest =>
      have := ((hB hloc he).2 m rest rfl).2
      rw [hrest] at this
      exact absurd this (lt_irrefl _)
  · intro he
    rw [hA he]
    exact ⟨rfl, rfl⟩

/-- C1 at a concrete state: node 3 is pending and the engine is entered at
node 2 while the driver has `<NATOMS` ready. -/
theorem C1_reentry_deferral_witness :
    (demo_pending.exit_flag = false ∧ demo_pending.target_node ≠ 0 ∧
      (2 : Int) ≠ demo_pending.target_node) ∧
    engine_mode demo_sim 2 2 demo_pending [Msg.of "<NATOMS"] =
      Outcome.ok { demo_pending with current_node := 2, local_exit_flag := false }
        [Msg.of "<NATOMS"] :=
  ⟨⟨by decide, by decide, by decide⟩,
    (C1_reentry_deferral demo_sim 1 2 demo_pending [Msg.of "<NATOMS"] (by decide) (by decide)).1
      (by decide)⟩

/-! ## C2: EXIT is absorbing -/

theorem dispatch_exit (sim : Sim) (em : EngineMode) (k : Nat) (s : FixMDI) (m : Msg)
    (rest : List Msg) (hm : m.command = "EXIT") :
    dispatch sim em k s m rest = Outcome.ok { s with exit_flag := true } rest := by
  simp [dispatch, hm]

theorem engine_loop_done (sim : Sim) (em : EngineMode) (k : Nat) (s : FixMDI) (inp : List Msg)
    (h : s.exit_flag = true ∨ s.local_exit_flag = true) :
    engine_loop sim em k s inp = Outcome.ok { s with local_exit_flag := false } inp := by
  have hc : (s.exit_flag || s.local_exit_flag) = true := by
    rcases h with h | h <;> simp [h]
  cases k <;> simp [engine_loop, hc]

theorem engine_loop_exit (sim : Sim) (em : EngineMode) (k : Nat) (s : FixMDI) (m : Msg)
    (rest : List Msg) (hm : m.command = "EXIT") (hexit : s.exit_flag = false)
    (hloc : s.local_exit_flag = false) :
    engine_loop sim em (k + 1) s (m :: rest) =
      Outcome.ok { s with exit_flag := true, local_exit_flag := false } rest := by
  have h1 : engine_loop sim em (k + 1) s (m :: rest) =
      (dispatch sim em k s m rest).andThen
        (fun s1 r1 => engine_loop sim em k (check_target s1) r1) := by
    simp [engine_loop, hexit, hloc]
  rw [h1, dispatch_exit sim em k s m rest hm]
  simp only [Outcome.andThen, Outcome.ok]
  rw [engine_loop_done sim em k _ rest (Or.inl (by rw [(keeps_check_target _).1]))]
  unfold check_target
  split <;> rfl

theorem engine_mode_absorbed (sim : Sim) (n : Nat) (node : Int) (s : FixMDI) (inp : List Msg)
    (hexit : s.exit_flag = true) :
    engine_mode sim (n + 1) node s inp =
      Outcome.ok { s with current_node := node, local_exit_flag := false } inp := by
  simp only [engine_mode]
  rw [engine_loop_done sim _ _ _ inp (Or.inl (by rw [(keeps_check_target _).1]; exact hexit))]
  unfold check_target
  split <;> rfl

theorem check_target_no_target (s : FixMDI) (ht : s.target_node = 0) : check_target s = s := by
  simp [check_target, ht]

theorem engine_mode_one_exit (sim : Sim) (n : Nat) (node : Int) (s : FixMDI) (m : Msg)
    (rest : List Msg) (hm : m.command = "EXIT") (hexit : s.exit_flag = false)
    (hloc : s.local_exit_flag = false) (ht : s.target_node = 0) :
    engine_mode sim (n + 1) node s (m :: rest) =
      Outcome.ok { s with current_node := node, exit_flag := true, local_exit_flag := false }
        rest := by
  simp only [engine_mode]
  rw [check_target_no_target { s with current_node := node } ht]
  exact engine_loop_exit sim _ n _ m rest hm hexit hloc

theorem engine_before_exit (sim : Sim) (n : Nat) (node : Int) (s : FixMDI) (m : Msg)
    (rest inp : List Msg) (hm : m.command = "EXIT") (hloc : s.local_exit_flag = false)
    (h : (s.exit_flag = false ∧ inp = m :: rest ∧ s.target_node = 0 ∧ s.most_recent_init = 2) ∨
      (s.exit_flag = true ∧ inp = rest)) :
    (engine_mode sim (n + 1) node s inp).status = Status.ok ∧
    (engine_mode sim (n + 1) node s inp).state.local_exit_flag = false ∧
    (((engine_mode sim (n + 1) node s inp).state.exit_flag = false ∧
        (engine_mode sim (n + 1) node s inp).rest = m :: rest ∧
        (engine_mode sim (n + 1) node s inp).state.target_node = 0 ∧
        (engine_mode sim (n + 1) node s inp).state.most_recent_init = 2) ∨
      ((engine_mode sim (n + 1) node s inp).state.exit_flag = true ∧
        (engine_mode sim (n + 1) node s inp).rest = rest)) := by
  rcases h with ⟨hexit, hinp, ht, _⟩ | ⟨hexit, hinp⟩
  · subst hinp
    rw [engine_mode_one_exit sim n node s m rest hm hexit hloc ht]
    exact ⟨rfl, rfl, Or.inr ⟨rfl, rfl⟩⟩
  · subst hinp
    rw [engine_mode_absorbed sim n node s inp hexit]
    exact ⟨rfl, rfl, Or.inr ⟨hexit, rfl⟩⟩

theorem callback_before_exit (sim : Sim) (n : Nat) (c : Callback) (s : FixMDI) (m : Msg)
    (rest inp : List Msg) (hm : m.command = "EXIT") (hloc : s.local_exit_flag = false)
    (h : (s.exit_flag = false ∧ inp = m :: rest ∧ s.target_node = 0 ∧ s.most_recent_init = 2) ∨
      (s.exit_flag = true ∧ inp = rest)) :
    (callback sim (engine_mode sim (n + 1)) c s inp).status = Status.ok ∧
    (callback sim (engine_mode sim (n + 1)) c s inp).state.local_exit_flag = false ∧
    (((callback sim (engine_mode sim (n + 1)) c s inp).state.exit_flag = false ∧
        (callback sim (engine_mode sim (n + 1)) c s inp).rest = m :: rest ∧
        (callback sim (engine_mode sim (n + 1)) c s inp).state.target_node = 0 ∧
        (callback sim (engine_mode sim (n + 1)) c s inp).state.most_recent_init = 2) ∨
      ((callback sim (engine_mode sim (n + 1)) c s inp).state.exit_flag = true ∧
        (callback sim (engine_mode sim (n + 1)) c s inp).rest = rest)) := by
  cases c
  · exact ⟨rfl, hloc, h⟩
  · exact engine_before_exit sim n 1 s m rest inp hm hloc h
  · exact engine_before_exit sim n 2 { s with potential_energy := sim.pe_compute s.atoms } m rest
      inp hm hloc h
  · exact engine_before_exit sim n 1 s m rest inp hm hloc h
  · exact engine_before_exit sim n 2 s m rest inp hm hloc h
  · exact engine_before_exit sim n 3 s m rest inp hm hloc h
  · simp only [callback]
    split
    · rename_i h1
      rcases h with ⟨_, _, _, hi⟩ | h2
      · rw [hi] at h1
        exact absurd h1 (by decide)
      · exact ⟨rfl, hloc, Or.inr h2⟩
    · split
      · exact engine_before_exit sim n 3 s m rest inp hm hloc h
      · exact ⟨rfl, hloc, h⟩

theorem run_events_before_exit (sim : Sim) (n : Nat) (m : Msg) (rest : List Msg)
    (hm : m.command = "EXIT") (es : List Event) :
    ∀ (s : FixMDI) (inp : List Msg), s.local_exit_flag = false →
      ((s.exit_flag = false ∧ inp = m :: rest ∧ s.target_node = 0 ∧ s.most_recent_init = 2) ∨
        (s.exit_flag = true ∧ inp = rest)) →
      (run_events sim (engine_mode sim (n + 1)) es s inp).status = Status.ok ∧
      (run_events sim (engine_mode sim (n + 1)) es s inp).state.local_exit_flag = false ∧
      (((run_events sim (engine_mode sim (n + 1)) es s inp).state.exit_flag = false ∧
          (run_events sim (engine_mode sim (n + 1)) es s inp).rest = m :: rest ∧
          (run_events sim (engine_mode sim (n + 1)) es s inp).state.target_node = 0 ∧
          (run_events sim (engine_mode sim (n + 1)) es s inp).state.most_recent_init = 2) ∨
        ((run_events sim (engine_mode sim (n + 1)) es s inp).state.exit_flag = true ∧
          (run_events sim (engine_mode sim (n + 1)) es s inp).rest = rest)) := by
  induction es with
  | nil =>
    intro s inp hloc h
    exact ⟨rfl, hloc, h⟩
  | cons e es ih =>
    intro s inp hloc h
    cases e with
    | callback c =>
      have hc := callback_before_exit sim n c s m rest inp hm hloc h
      simp only [run_events, Outcome.andThen, hc.1]
      exact ih _ _ hc.2.1 hc.2.2
    | physics k =>
      simp only [run_events]
      exact ih _ _ hloc h

theorem optg_init_then_exit (sim : Sim) (n : Nat) (node : Int) (s : FixMDI) (m1 m : Msg)
    (rest : List Msg) (hm1 : m1.command = "OPTG_INIT") (hm : m.command = "EXIT")
    (hinit : s.most_recent_init = 0) (hexit : s.exit_flag = false)
    (hloc : s.local_exit_flag = false) (ht : s.target_node = 0) :
    (engine_mode sim (n + 2) node s (m1 :: m :: rest)).status = Status.ok ∧
    (engine_mode sim (n + 2) node s (m1 :: m :: rest)).state.exit_flag = true ∧
    (engine_mode sim (n + 2) node s (m1 :: m :: rest)).rest = rest := by
  rw [engine_mode_enter sim (n + 1) node s _ hexit hloc (Or.inl ht)]
  have hd : dispatch sim (engine_mode sim (n + 1)) (n + 1) { s with current_node := node } m1
      (m :: rest) = run_events sim (engine_mode sim (n + 1)) sim.iterate
        { minimize_setup sim { s with current_node := node } with
          current_node := -1, most_recent_init := 2 } (m :: rest) := by
    simp [dispatch, hm1, optg_init, hinit]
  simp only [hd]
  have hr := run_events_before_exit sim n m rest hm sim.iterate
    { minimize_setup sim { s with current_node := node } with
      current_node := -1, most_recent_init := 2 } (m :: rest) hloc
    (Or.inl ⟨hexit, rfl, ht, rfl⟩)
  simp only [Outcome.andThen, hr.1]
  rcases hr.2.2 with ⟨he, hrest, htt, _⟩ | ⟨he, hrest⟩
  · rw [hrest, check_target_no_target _ htt, engine_loop_exit sim _ n _ m rest hm he hr.2.1]
    exact ⟨rfl, rfl, rfl⟩
  · rw [hrest, engine_loop_done sim _ _ _ rest (Or.inl (by rw [(keeps_check_target _).1]; exact he))]
    exact ⟨rfl, by simp only [Outcome.ok]; rw [(keeps_check_target _).1]; exact he, rfl⟩

/-- C2 (EXIT is absorbing). Dispatching `EXIT` sets `exit_flag` and changes
nothing else, and the `engine_mode` loop that received it returns with the rest
of the driver input unread. With `exit_flag` set, `engine_mode` at any entry node
returns at once with the driver input untouched. No command handler and no
callback clears `exit_flag`. On an engine without initialisation, pending target
or exit flags, the sequence `OPTG_INIT`, `EXIT` ends with `exit_flag` set and
every later command unread, whatever the minimizer schedule is. -/
theorem C2_exit_absorbing (sim : Sim) (n k : Nat) (node : Int) (s : FixMDI) (m : Msg)
    (inp rest : List Msg) (hm : m.command = "EXIT") :
    dispatch sim (engine_mode sim n) k s m rest = Outcome.ok { s with exit_flag := true } rest ∧
    (s.exit_flag = false → s.local_exit_flag = false →
      engine_loop sim (engine_mode sim n) (k + 1) s (m :: rest) =
        Outcome.ok { s with exit_flag := true, local_exit_flag := false } rest) ∧
    (s.exit_flag = true →
      engine_mode sim (n + 1) node s inp =
        Outcome.ok { s with current_node := node, local_exit_flag := false } inp) ∧
    (s.exit_flag = true → ∀ m2 : Msg,
      (dispatch sim (engine_mode sim n) k s m2 rest).state.exit_flag = true) ∧
    (s.exit_flag = true → ∀ c : Callback,
      (callback sim (engine_mode sim n) c s inp).state.exit_flag = true) ∧
    (s.most_recent_init = 0 → s.exit_flag = false → s.local_exit_flag = false →
      s.target_node = 0 → ∀ m1 : Msg, m1.command = "OPTG_INIT" →
        (engine_mode sim (n + 2) node s (m1 :: m :: rest)).status = Status.ok ∧
        (engine_mode sim (n + 2) node s (m1 :: m :: rest)).state.exit_flag = true ∧
        (engine_mode sim (n + 2) node s (m1 :: m :: rest)).rest = rest) :=
  ⟨dispatch_exit sim _ k s m rest hm,
    fun hexit hloc => engine_loop_exit sim _ k s m rest hm hexit hloc,
    fun hexit => engine_mode_absorbed sim n node s inp hexit,
    fun hexit m2 => (keeps_dispatch sim (keeps_engine_mode sim n) k s m2 rest).2.1 hexit,
    fun hexit c => (keeps_callback sim (keeps_engine_mode sim n) c s inp).2.1 hexit,
    fun hinit hexit hloc ht m1 hm1 =>
      optg_init_then_exit sim n node s m1 m rest hm1 hm hinit hexit hloc ht⟩

/-- C2 at the fresh engine `demo_engine`: after `OPTG_INIT`, `EXIT` the flag is
set and the following `STATUS` stays unread. -/
theorem C2_exit_absorbing_witness :
    (Msg.of "EXIT").command = "EXIT" ∧
    (engine_mode demo_sim 2 0 demo_engine
      [Msg.of "OPTG_INIT", Msg.of "EXIT", Msg.of "STATUS      "]).state.exit_flag = true ∧
    (engine_mode demo_sim 2 0 demo_engine
      [Msg.of "OPTG_INIT", Msg.of "EXIT", Msg.of "STATUS      "]).rest = [Msg.of "STATUS      "] :=
  ⟨rfl,
    ((C2_exit_absorbing demo_sim 0 0 0 demo_engine (Msg.of "EXIT") [] [Msg.of "STATUS      "]
      rfl).2.2.2.2.2 (by decide) (by decide) (by decide) (by decide) (Msg.of "OPTG_INIT") rfl).2⟩

/-! ## C3: unknown tokens -/

theorem dispatch_unknown (sim : Sim) (em : EngineMode) (k : Nat) (s : FixMDI) (m : Msg)
    (rest : List Msg) (hm : m.command ∉ recognised) :
    dispatch sim em k s m rest = Outcome.fatal "Unknown command from driver" s rest := by
  simp only [recognised, List.mem_cons, List.mem_singleton, List.not_mem_nil, not_or, or_false] at hm
  obtain ⟨h1, h2, h3, h4, h5, h6, h7, h8, h9, h10, h11, h12, h13, h14, h15, h16, h17, h18, h19,
    h20⟩ := hm
  unfold dispatch
  rw [if_neg h1, if_neg h2, if_neg h3, if_neg h4, if_neg h5, if_neg h6, if_neg h7, if_neg h8,
    if_neg h9, if_neg h10, if_neg h11, if_neg h12, if_neg h13, if_neg h14, if_neg h15, if_neg h16,
    if_neg h17, if_neg h18, if_neg h19, if_neg h20]

/-- C3 (unknown-token rejection). For every engine state, hence every current
node, a received token that the dispatch chain does not compare against takes
the `Unknown command from driver` abort; the state recorded at the abort is the
state in which the token was received (control fields, `add_force`, per-atom
data and everything else), the abort is final (nothing runs after it), and the
loop and `engine_mode` end with this abort. -/
theorem C3_unknown_token (sim : Sim) (em : EngineMode) (n k : Nat) (node : Int) (s : FixMDI)
    (m : Msg) (rest : List Msg) (hm : m.command ∉ recognised) :
    dispatch sim em k s m rest = Outcome.fatal "Unknown command from driver" s rest ∧
    (∀ cont : FixMDI → List Msg → Outcome,
      (dispatch sim em k s m rest).andThen cont =
        Outcome.fatal "Unknown command from driver" s rest) ∧
    (s.exit_flag = false → s.local_exit_flag = false →
      engine_loop sim em (k + 1) s (m :: rest) =
        Outcome.fatal "Unknown command from driver" s rest) ∧
    (s.exit_flag = false → s.local_exit_flag = false →
      (s.target_node = 0 ∨ s.target_node = node) →
      engine_mode sim (n + 1) node s (m :: rest) =
        Outcome.fatal "Unknown command from driver" { s with current_node := node } rest) := by
  have hd := dispatch_unknown sim em k s m rest hm
  refine ⟨hd, fun cont => by rw [hd]; rfl, fun hexit hloc => ?_, fun hexit hloc ht => ?_⟩
  · have h1 : engine_loop sim em (k + 1) s (m :: rest) =
        (dispatch sim em k s m rest).andThen
          (fun s1 r1 => engine_loop sim em k (check_target s1) r1) := by
      simp [engine_loop, hexit, hloc]
    rw [h1, hd]
    rfl
  · rw [engine_mode_enter sim n node s _ hexit hloc ht]
    simp only []
    rw [dispatch_unknown sim _ n _ m rest hm]
    rfl

/-- C3 at the fresh engine: the token `BOGUS` received at node 0. -/
theorem C3_unknown_token_witness :
    (Msg.of "BOGUS").command ∉ recognised ∧
    dispatch demo_sim (engine_mode demo_sim 1) 1 demo_engine (Msg.of "BOGUS") [] =
      Outcome.fatal "Unknown command from driver" demo_engine [] :=
  ⟨by decide, (C3_unknown_token demo_sim (engine_mode demo_sim 1) 1 1 0 demo_engine
    (Msg.of "BOGUS") [] (by decide)).1⟩

/-! ## C4: double initialisation -/

theorem optg_init_state (sim : Sim) (n : Nat) (s : FixMDI) (rest : List Msg) :
    (optg_init sim (engine_mode sim n) s rest).state.most_recent_init ≠ 0 ∨
      (optg_init sim (engine_mode sim n) s rest).state.most_recent_init = s.most_recent_init ∧
        s.most_recent_init ≠ 0 := by
  unfold optg_init
  split
  · rename_i h
    exact Or.inr ⟨rfl, h⟩
  · exact Or.inl ((keeps_run_events sim (keeps_engine_mode sim n) sim.iterate
      { minimize_setup sim s with current_node := -1, most_recent_init := 2 } rest).2.2 (by simp))

/-- C4 (double initialisation). `md_init` aborts with the
already-initialised error exactly when `most_recent_init ≠ 0`, and so does
`optg_init` (its abort at the guard is the one that leaves state and driver
input as they were); the abort leaves the whole state unchanged. With
`most_recent_init = 0`, `md_init` returns normally with `most_recent_init = 1`
and `current_node = -1`. After either initialisation `most_recent_init` is
non-zero and no call ever makes it zero again, so a later `MD_INIT` or
`OPTG_INIT` command is always dispatched into the abort. -/
theorem C4_double_init (sim : Sim) (n k : Nat) (node : Int) (s : FixMDI) (inp rest : List Msg) :
    ((md_init sim s rest).status = Status.fatal already_init ↔ s.most_recent_init ≠ 0) ∧
    (optg_init sim (engine_mode sim n) s rest = Outcome.fatal already_init s rest ↔
      s.most_recent_init ≠ 0) ∧
    (s.most_recent_init ≠ 0 → md_init sim s rest = Outcome.fatal already_init s rest) ∧
    (s.most_recent_init = 0 →
      (md_init sim s rest).status = Status.ok ∧ (md_init sim s rest).rest = rest ∧
      (md_init sim s rest).state.most_recent_init = 1 ∧
      (md_init sim s rest).state.current_node = -1) ∧
    (s.most_recent_init = 0 →
      (optg_init sim (engine_mode sim n) s rest).state.most_recent_init ≠ 0) ∧
    (s.most_recent_init ≠ 0 →
      (engine_mode sim n node s inp).state.most_recent_init ≠ 0) ∧
    (s.most_recent_init ≠ 0 → ∀ m : Msg, m.command = "MD_INIT" ∨ m.command = "OPTG_INIT" →
      dispatch sim (engine_mode sim n) k s m rest = Outcome.fatal already_init s rest) := by
  refine ⟨?_, ?_, ?_, ?_, ?_, ?_, ?_⟩
  · unfold md_init
    split
    · rename_i h
      exact ⟨fun _ => h, fun _ => rfl⟩
    · rename_i h
      exact ⟨fun hs => (by cases hs), fun hs => absurd hs h⟩
  · constructor
    · intro h hz
      rcases optg_init_state sim n s rest with h1 | ⟨_, h1⟩
      · rw [h] at h1
        exact h1 hz
      · exact h1 hz
    · intro h
      simp [optg_init, h, already_init]
  · intro h
    simp [md_init, h, already_init]
  · intro h
    simp [md_init, h, Outcome.ok, integrate_setup, setup]
  · intro h
    rcases optg_init_state sim n s rest with h1 | ⟨_, h1⟩
    · exact h1
    · exact absurd h h1
  · intro h
    exact (keeps_engine_mode sim n node s inp).2.2 h
  · intro h m hm
    rcases hm with hm | hm
    · simp [dispatch, hm, md_init, h, already_init]
    · simp [dispatch, hm, optg_init, h, already_init]

/-- C4 at the fresh engine: `MD_INIT` succeeds there and leaves
`most_recent_init = 1`, `current_node = -1`; a second `MD_INIT` aborts. -/
theorem C4_double_init_witness :
    demo_engine.most_recent_init = 0 ∧
    ((md_init demo_sim demo_engine []).state.most_recent_init = 1 ∧
      (md_init demo_sim demo_engine []).state.current_node = -1) ∧
    (md_init demo_sim (md_init demo_sim demo_engine []).state []).status =
      Status.fatal already_init :=
  ⟨by decide, ((C4_double_init demo_sim 1 1 0 demo_engine [] []).2.2.2.1 (by decide)).2.2,
    (C4_double_init demo_sim 1 1 0 (md_init demo_sim demo_engine []).state [] []).1.2
      (by decide)⟩

/-! ## C5: scenario 1 and `EXIT_SIM` -/

/-- C5 (scenario 1). The engine dispatch has no branch for `EXIT_SIM`
(nor for `MD_EXIT`): in every state the token takes the
`Unknown command from driver` abort. On the fresh engine with the Verlet
schedule the sequence `MD_INIT`, `ATOM_STEP`, `<ENERGY`, `EXIT_SIM` therefore
ends in that abort, reached inside the step (current node 1) after the energy
was sent, with `exit_flag` still false. -/
theorem C5_exit_sim_rejected :
    (∀ (sim : Sim) (em : EngineMode) (k : Nat) (s : FixMDI) (rest : List Msg),
      dispatch sim em k s (Msg.of "EXIT_SIM") rest =
        Outcome.fatal "Unknown command from driver" s rest) ∧
    (∀ (sim : Sim) (em : EngineMode) (k : Nat) (s : FixMDI) (rest : List Msg),
      dispatch sim em k s (Msg.of "MD_EXIT") rest =
        Outcome.fatal "Unknown command from driver" s rest) ∧
    demo_engine.most_recent_init = 0 ∧ demo_engine.target_node = 0 ∧
    demo_engine.exit_flag = false ∧ demo_engine.local_exit_flag = false ∧
    (engine_mode demo_sim 4 0 demo_engine scenario1).status =
      Status.fatal "Unknown command from driver" ∧
    (engine_mode demo_sim 4 0 demo_engine scenario1).rest = [] ∧
    (engine_mode demo_sim 4 0 demo_engine scenario1).state.current_node = 1 ∧
    (engine_mode demo_sim 4 0 demo_engine scenario1).state.exit_flag = false ∧
    (engine_mode demo_sim 4 0 demo_engine scenario1).state.sent.length = 1 :=
  ⟨fun sim em k s rest => dispatch_unknown sim em k s _ rest (by decide),
    fun sim em k s rest => dispatch_unknown sim em k s _ rest (by decide),
    by decide, by decide, by decide, by decide, by decide, by decide, by decide, by decide,
    by decide⟩

/-! ## C6: top-level command validation -/

/-- C6 (top-level validation). When the engine returns `@INIT_MD` at
`@DEFAULT` and the MD sub-run ends without a global exit (`mdi_md` returns 0,
here on `MD_EXIT`), the loop of `CommandMDI::command` does not resume the
engine: the command falls through to the separate `@INIT_OPTG`/`EXIT` chain and
takes the `MDI received unsupported command` abort, although the command is
`@INIT_MD`. -/
theorem C6_init_md_falls_through :
    mdi_md ["MD_EXIT"] = some 0 ∧
    command_loop [⟨"@INIT_MD", ["MD_EXIT"]⟩, ⟨"EXIT", []⟩] =
      Session.error "MDI received unsupported command: @INIT_MD" [⟨"EXIT", []⟩] ∧
    (∀ (obs : List String) (rest : List Resume), mdi_md obs = some 0 →
      command_loop (⟨"@INIT_MD", obs⟩ :: rest) =
        Session.error "MDI received unsupported command: @INIT_MD" rest) := by
  refine ⟨by decide, by decide, fun obs rest h => ?_⟩
  simp [command_loop, command_init_md, h]

/-! ## C7: exit propagation of the MD sub-run -/

theorem md_terminal_pos (i : Nat) (c : String) (hi : 0 < i) :
    md_terminal i c =
      if c = "EXIT_SIM" then some 0 else if c = "EXIT" then some 1 else none := by
  unfold md_terminal
  have h0 : i ≠ 0 := Nat.pos_iff_ne_zero.mp hi
  by_cases h1 : c = "EXIT_SIM"
  · subst h1
    simp [hi]
  · by_cases h2 : c = "EXIT"
    · simp [h2]
    · simp [h1, h2, h0]

theorem md_terminal_zero (c : String) :
    md_terminal 0 c = if c = "MD_EXIT" then some 0 else if c = "EXIT" then some 1 else none := by
  unfold md_terminal
  by_cases h1 : c = "MD_EXIT"
  · subst h1
    simp
  · by_cases h2 : c = "EXIT"
    · simp [h2]
    · simp [h1, h2]

theorem mdi_md_loop_spec (i : Nat) (hi : 0 < i) (obs : List String) :
    mdi_md_loop obs = mdi_md_spec i obs := by
  induction obs generalizing i with
  | nil => rfl
  | cons c later ih =>
    simp only [mdi_md_loop, mdi_md_spec, md_terminal_pos i c hi]
    by_cases h1 : c = "EXIT_SIM"
    · simp [h1]
    · by_cases h2 : c = "EXIT"
      · simp [h2]
      · simp only [h1, h2, if_false]
        exact ih (i + 1) (Nat.succ_pos i)

theorem mdi_md_eq_spec (obs : List String) : mdi_md obs = mdi_md_spec 0 obs := by
  cases obs with
  | nil => rfl
  | cons c later =>
    simp only [mdi_md, mdi_md_spec, md_terminal_zero c]
    by_cases h1 : c = "MD_EXIT"
    · simp [h1]
    · by_cases h2 : c = "EXIT"
      · simp [h2]
      · simp only [h1, h2, if_false]
        cases later with
        | nil => rfl
        | cons c1 later1 =>
          simp only [mdi_md_spec, md_terminal_pos 1 c1 Nat.one_pos]
          by_cases h3 : c1 = "EXIT_SIM"
          · simp [h3]
          · by_cases h4 : c1 = "EXIT"
            · simp [h4]
            · simp only [h3, h4, if_false]
              exact mdi_md_loop_spec 2 (by decide) later1

theorem mdi_md_spec_iff (obs : List String) : ∀ (b : Nat) (r : Int),
    mdi_md_spec b obs = some r ↔
      ∃ i c, obs[i]? = some c ∧ md_terminal (b + i) c = some r ∧
        ∀ j, j < i → ∀ d, obs[j]? = some d → md_terminal (b + j) d = none := by
  induction obs with
  | nil =>
    intro b r
    simp [mdi_md_spec]
  | cons c later ih =>
    intro b r
    cases h : md_terminal b c with
    | none =>
      simp only [mdi_md_spec, h]
      rw [ih (b + 1) r]
      constructor
      · rintro ⟨i, c1, h1, h2, h3⟩
        refine ⟨i + 1, c1, by simpa using h1, ?_, ?_⟩
        · rw [show b + (i + 1) = b + 1 + i by omega]
          exact h2
        · intro j hj d hd
          cases j with
          | zero =>
            simp at hd
            subst hd
            exact h
          | succ j =>
            rw [show b + (j + 1) = b + 1 + j by omega]
            exact h3 j (by omega) d (by simpa using hd)
      · rintro ⟨i, c1, h1, h2, h3⟩
        cases i with
        | zero =>
          simp at h1
          subst h1
          rw [Nat.add_zero, h] at h2
          cases h2
        | succ i =>
          refine ⟨i, c1, by simpa using h1, ?_, ?_⟩
          · rw [show b + 1 + i = b + (i + 1) by omega]
            exact h2
          · intro j hj d hd
            rw [show b + 1 + j = b + (j + 1) by omega]
            exact h3 (j + 1) (by omega) d (by simpa using hd)
    | some r0 =>
      simp only [mdi_md_spec, h]
      constructor
      · intro hr
        refine ⟨0, c, by simp, ?_, ?_⟩
        · rw [Nat.add_zero, h]
          exact hr
        · intro j hj
          exact absurd hj (Nat.not_lt_zero j)
      · rintro ⟨i, c1, h1, h2, h3⟩
        cases i with
        | zero =>
          simp at h1
          subst h1
          rw [Nat.add_zero, h] at h2
          exact h2
        | succ i =>
          have := h3 0 (Nat.succ_pos i) c (by simp)
          rw [Nat.add_zero, h] at this
          cases this

/-- C7 (exit propagation of the MD sub-run). For every sequence of observed
commands, `mdi_md` returns `r` exactly when some observation is terminal for its
stage with value `r` and no earlier observation is terminal: the value is 1
exactly for `EXIT`, and 0 exactly for `MD_EXIT` at the `@INIT_MD` stage (index 0)
or `EXIT_SIM` at a later stage; nothing else is terminal. When `mdi_md` returns
1, `CommandMDI::command` returns and the remaining resumptions stay unused. -/
theorem C7_md_exit_propagation :
    (∀ (obs : List String) (r : Int),
      mdi_md obs = some r ↔
        ∃ i c, obs[i]? = some c ∧ md_terminal i c = some r ∧
          ∀ j, j < i → ∀ d, obs[j]? = some d → md_terminal j d = none) ∧
    (∀ (i : Nat) (c : String), md_terminal i c = some 1 ↔ c = "EXIT") ∧
    (∀ (i : Nat) (c : String),
      md_terminal i c = some 0 ↔ (i = 0 ∧ c = "MD_EXIT") ∨ (0 < i ∧ c = "EXIT_SIM")) ∧
    (∀ (i : Nat) (c : String) (r : Int), md_terminal i c = some r → r = 0 ∨ r = 1) ∧
    (∀ (obs : List String) (rest : List Resume), mdi_md obs = some 1 →
      command_loop (⟨"@INIT_MD", obs⟩ :: rest) = Session.returned rest ∧
      command 0 1 1 (⟨"@INIT_MD", obs⟩ :: rest) = Session.returned rest) := by
  refine ⟨fun obs r => ?_, fun i c => ?_, fun i c => ?_, fun i c r => ?_, fun obs rest h => ?_⟩
  · rw [mdi_md_eq_spec, mdi_md_spec_iff obs 0 r]
    simp only [Nat.zero_add]
  · unfold md_terminal
    by_cases h1 : c = "EXIT"
    · simp [h1]
    · simp only [h1, if_false, iff_false]
      split_ifs <;> simp
  · unfold md_terminal
    by_cases h1 : c = "EXIT"
    · subst h1
      simp
    · simp only [h1, if_false]
      by_cases h2 : i = 0 ∧ c = "MD_EXIT"
      · simp [h2]
      · simp only [h2, if_false, false_or]
        by_cases h3 : 0 < i ∧ c = "EXIT_SIM"
        · simp [h3]
        · simp [h3]
  · unfold md_terminal
    split_ifs <;> simp <;> intro h <;> simp [← h]
  · have hl : command_loop (⟨"@INIT_MD", obs⟩ :: rest) = Session.returned rest := by
      simp [command_loop, command_init_md, h]
    exact ⟨hl, by simp [command, hl]⟩

/-- C7 on the observations `@FORCES`, `<ENERGY`, `EXIT`: the sub-run returns 1
and the top-level command returns. -/
theorem C7_md_exit_propagation_witness :
    mdi_md ["@FORCES", "<ENERGY", "EXIT"] = some 1 ∧
    command_loop [⟨"@INIT_MD", ["@FORCES", "<ENERGY", "EXIT"]⟩, ⟨"@INIT_MD", []⟩] =
      Session.returned [⟨"@INIT_MD", []⟩] :=
  ⟨by decide, (C7_md_exit_propagation.2.2.2.2 ["@FORCES", "<ENERGY", "EXIT"] [⟨"@INIT_MD", []⟩]
    (by decide)).1⟩

/-! ## C8: the optimization sub-run -/

/-- C8 (optimization sub-run). Let the command delivered at `@INIT_OPTG` be
neither `EXIT_SIM` nor `EXIT`. When the last command the engine holds after the
minimizer setup is `EXIT_SIM` (resp. `EXIT`), `mdi_optg` returns 0 (resp. 1)
right after the setup, whatever follows and without waiting for the iterate
call. When the setup ends with another command and the last command after the
first iterate call is `EXIT_SIM` (resp. `EXIT`), it returns 0 (resp. 1) after
that call. In none of these cases is the `invalid command` abort reached; the
abort is reached exactly when all three commands are something else, and on
three or more observations `mdi_optg` is the sub-run in the words of the
specification. -/
theorem C8_optg_checks_each_phase (c_init c_setup c_iterate : String) (later : List String)
    (h1 : c_init ≠ "EXIT_SIM") (h2 : c_init ≠ "EXIT") :
    (c_setup = "EXIT_SIM" → mdi_optg (c_init :: c_setup :: later) = some (SubRun.returned 0)) ∧
    (c_setup = "EXIT" → mdi_optg (c_init :: c_setup :: later) = some (SubRun.returned 1)) ∧
    (c_setup ≠ "EXIT_SIM" → c_setup ≠ "EXIT" → c_iterate = "EXIT_SIM" →
      mdi_optg (c_init :: c_setup :: c_iterate :: later) = some (SubRun.returned 0)) ∧
    (c_setup ≠ "EXIT_SIM" → c_setup ≠ "EXIT" → c_iterate = "EXIT" →
      mdi_optg (c_init :: c_setup :: c_iterate :: later) = some (SubRun.returned 1)) ∧
    (c_setup ≠ "EXIT_SIM" → c_setup ≠ "EXIT" → c_iterate ≠ "EXIT_SIM" → c_iterate ≠ "EXIT" →
      mdi_optg (c_init :: c_setup :: c_iterate :: later) = some (SubRun.error
        ("MDI reached end of OPTG simulation with invalid command: " ++ c_iterate))) ∧
    ((∃ msg, mdi_optg (c_init :: c_setup :: c_iterate :: later) = some (SubRun.error msg)) ↔
      (c_setup ≠ "EXIT_SIM" ∧ c_setup ≠ "EXIT" ∧ c_iterate ≠ "EXIT_SIM" ∧
        c_iterate ≠ "EXIT")) ∧
    mdi_optg (c_init :: c_setup :: c_iterate :: later) =
      mdi_optg_spec (c_init :: c_setup :: c_iterate :: later) := by
  refine ⟨fun h => ?_, fun h => ?_, fun h3 h4 h => ?_, fun h3 h4 h => ?_,
    fun h3 h4 h5 h6 => ?_, ?_, ?_⟩
  · subst h
    simp [mdi_optg, last_command, h1, h2]
  · subst h
    simp [mdi_optg, last_command, h1, h2]
  · subst h
    simp [mdi_optg, last_command, h1, h2, h3, h4]
  · subst h
    simp [mdi_optg, last_command, h1, h2, h3, h4]
  · simp [mdi_optg, last_command, h1, h2, h3, h4, h5, h6]
  · simp only [mdi_optg, last_command, List.getElem?_cons_zero, List.getElem?_cons_succ, h1, h2,
      if_false]
    by_cases h3 : c_setup = "EXIT_SIM"
    · simp [h3]
    · by_cases h4 : c_setup = "EXIT"
      · simp [h4]
      · by_cases h5 : c_iterate = "EXIT_SIM"
        · simp [h3, h4, h5]
        · by_cases h6 : c_iterate = "EXIT"
          · simp [h3, h4, h6]
          · simp [h3, h4, h5, h6]
  · simp [mdi_optg, mdi_optg_spec, last_command]

/-- C8 on two runs that start with `@FORCES` at `@INIT_OPTG`: `EXIT` after the
setup gives 1 at once, `EXIT_SIM` after the first iterate call gives 0. -/
theorem C8_optg_checks_each_phase_witness :
    ("@FORCES" ≠ "EXIT_SIM" ∧ "@FORCES" ≠ "EXIT") ∧
    mdi_optg ["@FORCES", "EXIT"] = some (SubRun.returned 1) ∧
    mdi_optg ["@FORCES", "<COORDS", "EXIT_SIM"] = some (SubRun.returned 0) :=
  ⟨⟨by decide, by decide⟩,
    (C8_optg_checks_each_phase "@FORCES" "EXIT" "" [] (by decide) (by decide)).2.1 rfl,
    (C8_optg_checks_each_phase "@FORCES" "<COORDS" "EXIT_SIM" [] (by decide)
      (by decide)).2.2.1 (by decide) (by decide) rfl⟩

/-! ## C9: external forces and the force-evaluation callbacks -/

/-- C9 (external forces). After `+PRE-FORCES` has stored a buffer of all 1.0,
the callbacks `post_force` and `min_post_force` (and `setup`) return with the
forces of every atom as they were: the calls of `exchange_forces` are disabled,
so nothing of `add_force` is added, while `exchange_forces` itself would add 1.0
to every force component of the atoms in the group. -/
theorem C9_external_forces_not_applied :
    demo_forced.add_force = [1, 1, 1, 1, 1, 1] ∧ demo_forced.atoms = demo_atoms ∧
    (callback demo_sim (engine_mode demo_sim 2) Callback.post_force demo_forced
      [Msg.of "@FORCES"]).status = Status.ok ∧
    (callback demo_sim (engine_mode demo_sim 2) Callback.post_force demo_forced
      [Msg.of "@FORCES"]).state.atoms = demo_atoms ∧
    (callback demo_sim (engine_mode demo_sim 2) Callback.min_post_force demo_forced
      [Msg.of "@PRE-FORCES"]).state.atoms = demo_atoms ∧
    (callback demo_sim (engine_mode demo_sim 2) Callback.setup demo_forced []).state.atoms =
      demo_atoms ∧
    (exchange_forces demo_forced).map FixMDI.atoms =
      some [[⟨2, 1, 1, 4, 5, 6, 1, 1, 1, 7⟩], [⟨1, 1, 1, 1, 2, 3, 1, 1, 1, 8⟩]] := by
  refine ⟨?_, ?_, ?_, ?_, ?_, ?_, ?_⟩
  · decide!
  · decide!
  · decide!
  · decide!
  · decide!
  · decide!
  · decide!

/-! ## C10: the gathers of `<COORDS` and `<CHARGES` -/

theorem gather_charges_two_ranks (sim : Sim) :
    gather_charges sim 2 demo_atoms = some [0 + sim.heap 0 0 + 8, 0 + 7 + sim.heap 1 1] := by
  simp [gather_charges, each_rank, pack_charges, buf_write, new_double, demo_atoms,
    mpi_reduce_sum, buf_add, List.range_succ]

/-- C10 (gather conservation). Two ranks own one atom each (tags 2 and 1)
and the heap holds 5 in the buffers obtained from `new double[..]`, which
`send_coordinates` and `send_charges` do not clear: the slots a rank does not
own keep the heap content, and the reduced buffers are `[6,..,11]` and
`[13, 12]` instead of the coordinates `[1,..,6]` and charges `[8, 7]` by tag.
With a heap of zeros the buffers are the values by tag, and the charge buffer
is the one by tag only if the two slots that are not owned held zero. -/
theorem C10_gather_uninitialised :
    gather_coordinates dirty_sim 2 demo_atoms = some [6, 7, 8, 9, 10, 11] ∧
    gather_charges dirty_sim 2 demo_atoms = some [13, 12] ∧
    gather_coordinates demo_sim 2 demo_atoms = some [1, 2, 3, 4, 5, 6] ∧
    gather_charges demo_sim 2 demo_atoms = some [8, 7] ∧
    (∀ sim : Sim, gather_charges sim 2 demo_atoms = some [8, 7] ↔
      sim.heap 0 0 = 0 ∧ sim.heap 1 1 = 0) := by
  refine ⟨?_, ?_, ?_, ?_, fun sim => ?_⟩
  · decide!
  · decide!
  · decide!
  · decide!
  · rw [gather_charges_two_ranks sim]
    simp

/-! ## C12: `<TYPES` -/

/-- C12 (types by atom identity). One rank holds two atoms in the local order
tag 2 (type 5), tag 1 (type 7): `<TYPES` sends `[5, 7]`, the local array as it
is, so slot 0 holds the type of the atom with tag 2, while `<CHARGES` on the
same state sends the charges by tag. On two ranks the master has fewer than
`natoms` local entries and `send_types` reads past them. -/
theorem C12_types_in_local_order :
    (send_types swapped_engine []).state.sent = [Reply.ints [5, 7]] ∧
    (send_charges demo_sim swapped_engine []).state.sent = [Reply.doubles [8, 7]] ∧
    (send_types demo_engine []).status = Status.fault := by
  refine ⟨?_, ?_, ?_⟩
  · decide!
  · decide!
  · decide!

/-! ## C14: `STATUS` -/

/-- C14 (`STATUS`). The dispatch compares the received command with `STATUS`
followed by six blanks, and with every other token without padding. The token
`STATUS` as such is therefore not recognised and takes the
`Unknown command from driver` abort in every state; only the blank-padded form
is answered with `READY`, leaving everything but the record of sent replies
unchanged, and a blank-padded `EXIT` is in turn not recognised. -/
theorem C14_status_padding :
    (∀ (sim : Sim) (em : EngineMode) (k : Nat) (s : FixMDI) (rest : List Msg),
      dispatch sim em k s (Msg.of "STATUS") rest =
        Outcome.fatal "Unknown command from driver" s rest) ∧
    (∀ (sim : Sim) (em : EngineMode) (k : Nat) (s : FixMDI) (rest : List Msg),
      dispatch sim em k s (Msg.of "STATUS      ") rest =
        Outcome.ok { s with sent := s.sent ++ [Reply.command "READY"] } rest) ∧
    (∀ (sim : Sim) (em : EngineMode) (k : Nat) (s : FixMDI) (rest : List Msg),
      dispatch sim em k s (Msg.of "EXIT        ") rest =
        Outcome.fatal "Unknown command from driver" s rest) ∧
    (∀ (sim : Sim) (em : EngineMode) (k : Nat) (s : FixMDI) (rest : List Msg),
      dispatch sim em k s (Msg.of "EXIT") rest = Outcome.ok { s with exit_flag := true } rest) :=
  ⟨fun sim em k s rest => dispatch_unknown sim em k s _ rest (by decide),
    fun sim em k s rest => by simp [dispatch, Msg.of],
    fun sim em k s rest => dispatch_unknown sim em k s _ rest (by decide),
    fun sim em k s rest => dispatch_exit sim em k s _ rest rfl⟩

/-! ## C15: size of `add_force` -/

/-- C15 (size of the external force buffer). `>NATOMS` overwrites `natoms`
and leaves `add_force` as allocated by the constructor: from the fresh engine
for two atoms (6 slots), `>NATOMS 3` gives `natoms = 3` with `add_force` still
6 slots long, and the following `+PRE-FORCES`, which copies `3*natoms = 9`
values into `add_force`, writes past its end. -/
theorem C15_natoms_not_resized :
    demo_engine.add_force.length = 6 ∧ demo_engine.natoms = 2 ∧
    (∀ (sim : Sim) (em : EngineMode) (k : Nat) (s : FixMDI) (m : Msg) (rest : List Msg),
      m.command = ">NATOMS" →
        dispatch sim em k s m rest = Outcome.ok { s with natoms := m.ival } rest) ∧
    (engine_mode demo_sim 2 0 demo_engine [natoms_three, Msg.of "EXIT"]).state.natoms = 3 ∧
    (engine_mode demo_sim 2 0 demo_engine
      [natoms_three, Msg.of "EXIT"]).state.add_force.length = 6 ∧
    (engine_mode demo_sim 2 0 demo_engine [natoms_three, pre_forces_nine]).status =
      Status.fault := by
  refine ⟨by decide, by decide, fun sim em k s m rest hm => ?_, by decide!, by decide!,
    by decide!⟩
  simp [dispatch, hm]

/-! ## C16: the target of `ATOM_STEP` -/

theorem engine_mode_idle (sim : Sim) (n : Nat) (node : Int) (s : FixMDI) :
    (engine_mode sim n node s []).state.target_node = s.target_node ∧
      (engine_mode sim n node s []).rest = [] := by
  cases n with
  | zero => exact ⟨rfl, rfl⟩
  | succ n =>
    have hc : (check_target { s with current_node := node }).target_node = s.target_node := by
      unfold check_target
      split <;> rfl
    simp only [engine_mode, engine_loop]
    split
    · exact ⟨hc, rfl⟩
    · exact ⟨hc, rfl⟩

theorem callback_idle (sim : Sim) (n : Nat) (c : Callback) (s : FixMDI) :
    (callback sim (engine_mode sim n) c s []).state.target_node = s.target_node ∧
      (callback sim (engine_mode sim n) c s []).rest = [] := by
  cases c
  · exact ⟨rfl, rfl⟩
  · exact engine_mode_idle sim n 1 s
  · exact engine_mode_idle sim n 2 { s with potential_energy := sim.pe_compute s.atoms }
  · exact engine_mode_idle sim n 1 s
  · exact engine_mode_idle sim n 2 s
  · exact engine_mode_idle sim n 3 s
  · simp only [callback]
    split
    · exact ⟨rfl, rfl⟩
    · split
      · exact engine_mode_idle sim n 3 s
      · exact ⟨rfl, rfl⟩

theorem run_events_idle (sim : Sim) (n : Nat) (es : List Event) :
    ∀ s : FixMDI, (run_events sim (engine_mode sim n) es s []).state.target_node = s.target_node ∧
      (run_events sim (engine_mode sim n) es s []).rest = [] := by
  induction es with
  | nil => intro s; exact ⟨rfl, rfl⟩
  | cons e es ih =>
    intro s
    cases e with
    | callback c =>
      have hc := callback_idle sim n c s
      simp only [run_events, Outcome.andThen]
      split
      · rw [hc.2]
        exact ⟨(ih _).1.trans hc.1, (ih _).2⟩
      · exact hc
    | physics k =>
      simp only [run_events]
      exact ih _

theorem timestep_idle (sim : Sim) (n : Nat) (s : FixMDI) (ht : s.target_node = 1) :
    (timestep sim (engine_mode sim n) s []).state.target_node = 1 ∧
      (timestep sim (engine_mode sim n) s []).rest = [] := by
  unfold timestep
  split
  · split
    · have h := run_events_idle sim n sim.run { s with run_calls := s.run_calls + 1 }
      exact ⟨h.1.trans ht, h.2⟩
    · exact ⟨ht, rfl⟩
  · split
    · exact ⟨rfl, rfl⟩
    · exact ⟨ht, rfl⟩

theorem atom_step_loop_idle (sim : Sim) (n k : Nat) :
    ∀ s : FixMDI, s.target_node = 1 →
      (atom_step_loop sim (engine_mode sim n) k s []).state.target_node = 1 ∧
        (atom_step_loop sim (engine_mode sim n) k s []).rest = [] := by
  induction k with
  | zero =>
    intro s ht
    unfold atom_step_loop
    split <;> exact ⟨ht, rfl⟩
  | succ k ih =>
    intro s ht
    unfold atom_step_loop
    split
    · have h := timestep_idle sim n s ht
      simp only [Outcome.andThen]
      split
      · rw [h.2]
        exact ih _ h.1
      · exact h
    · exact ⟨ht, rfl⟩

theorem atom_step_idle (sim : Sim) (n k : Nat) (s : FixMDI) :
    (atom_step sim (engine_mode sim n) k s []).state.target_node = 1 ∧
      (atom_step sim (engine_mode sim n) k s []).rest = [] := by
  unfold atom_step
  simp only []
  have h := timestep_idle sim n
    { (if s.current_node = -1 then md_setup sim s else s) with target_node := 1 } rfl
  simp only [Outcome.andThen]
  split
  · rw [h.2]
    exact atom_step_loop_idle sim n k _ h.1
  · exact h

/-- C16, the claim as stated fails: on the engine after `MD_INIT`, with
nothing further sent by the driver, the `ATOM_STEP` handler leaves
`target_node = 1` and the engine waits at node 1, while `@FORCES` requests
node 3 and `end_of_step` records node 3. -/
theorem C16_atom_step_target_counterexample :
    ¬ ((atom_step demo_sim (engine_mode demo_sim 2) 2 demo_md []).state.target_node =
        (at_forces demo_sim { demo_md with current_node := 1 }).target_node) ∧
    ¬ ((atom_step demo_sim (engine_mode demo_sim 2) 2 demo_md []).state.target_node =
        (callback demo_sim (engine_mode demo_sim 2) Callback.end_of_step demo_md
          []).state.current_node) ∧
    (atom_step demo_sim (engine_mode demo_sim 2) 2 demo_md []).status = Status.blocked ∧
    (atom_step demo_sim (engine_mode demo_sim 2) 2 demo_md []).state.current_node = 1 := by
  refine ⟨by decide!, by decide!, by decide!, by decide!⟩

/-- C16 as amended (`ATOM_STEP` targets node 1). For every engine state the
`ATOM_STEP` handler sets `target_node = 1` before it runs `timestep`, and while
the driver sends no further command the handler ends, in whatever way, with
`target_node = 1`. This is the node at which `post_integrate` and
`min_pre_force` enter the engine, not node 3, which is what `@FORCES` requests
and what `end_of_step` records after an MD step. -/
theorem C16_atom_step_target (sim : Sim) (em : EngineMode) (n k : Nat) (s : FixMDI)
    (inp : List Msg) :
    atom_step sim em k s inp =
      (timestep sim em
        { (if s.current_node = -1 then md_setup sim s else s) with target_node := 1 } inp).andThen
        (fun s2 r2 => atom_step_loop sim em k s2 r2) ∧
    (atom_step sim (engine_mode sim n) k s []).state.target_node = 1 ∧
    (atom_step sim (engine_mode sim n) k s []).rest = [] ∧
    callback sim em Callback.post_integrate s inp = em 1 s inp ∧
    callback sim em Callback.min_pre_force s inp = em 1 s inp ∧
    (¬ (s.most_recent_init = 1 ∧ s.current_node = -1) → s.current_node ≠ -2 →
      (at_forces sim s).target_node = 3) ∧
    (s.most_recent_init = 1 →
      (callback sim em Callback.end_of_step s inp).state.current_node = 3) := by
  refine ⟨rfl, (atom_step_idle sim n k s).1, (atom_step_idle sim n k s).2, rfl, rfl, ?_, ?_⟩
  · intro h1 h2
    simp [at_forces, h1, h2]
  · intro h
    simp [callback, h, Outcome.ok]

/-- C16 as amended, at the engine after `MD_INIT`. -/
theorem C16_atom_step_target_witness :
    demo_md.most_recent_init = 1 ∧
    (atom_step demo_sim (engine_mode demo_sim 2) 2 demo_md []).state.target_node = 1 ∧
    (callback demo_sim (engine_mode demo_sim 2) Callback.end_of_step demo_md
      []).state.current_node = 3 :=
  ⟨by decide!, (C16_atom_step_target demo_sim (engine_mode demo_sim 2) 2 2 demo_md []).2.1,
    (C16_atom_step_target demo_sim (engine_mode demo_sim 2) 2 2 demo_md []).2.2.2.2.2.2
      (by decide!)⟩

/-! ## C17: node commands in the first iteration -/

theorem engine_loop_step (sim : Sim) (em : EngineMode) (k : Nat) (s : FixMDI) (m : Msg)
    (rest : List Msg) (hexit : s.exit_flag = false) (hloc : s.local_exit_flag = false) :
    engine_loop sim em (k + 1) s (m :: rest) =
      (dispatch sim em k s m rest).andThen
        (fun s1 r1 => engine_loop sim em k (check_target s1) r1) := by
  simp [engine_loop, hexit, hloc]

theorem dispatch_at_pre_forces (sim : Sim) (em : EngineMode) (k : Nat) (s : FixMDI) (m : Msg)
    (rest : List Msg) (hm : m.command = "@PRE-FORCES") :
    dispatch sim em k s m rest = Outcome.ok (at_pre_forces sim s) rest := by
  simp [dispatch, hm]

theorem dispatch_at_forces (sim : Sim) (em : EngineMode) (k : Nat) (s : FixMDI) (m : Msg)
    (rest : List Msg) (hm : m.command = "@FORCES") :
    dispatch sim em k s m rest = Outcome.ok (at_forces sim s) rest := by
  simp [dispatch, hm]

/-- C17 (first-iteration node commands). In the state after `MD_INIT`
(`most_recent_init = 1`, `current_node = -1`, no target, no exit flag),
`@PRE-FORCES` runs `md_setup` once and sets `current_node = -2`; the loop goes
on, and an immediately following `@FORCES` sets `current_node = 3` without
another `md_setup`, with `target_node` still 0 and `local_exit_flag` clear, so
the same loop goes on with the next command. In every other state
`@PRE-FORCES` (`current_node ≠ -1`) sets `target_node = 2`, `@FORCES` (neither
MD at -1 nor at -2) sets `target_node = 3`, and the loop returns with the rest
of the driver input unread. -/
theorem C17_first_iteration (sim : Sim) (em : EngineMode) (k : Nat) (s : FixMDI) (m1 m2 : Msg)
    (rest : List Msg) (h1 : m1.command = "@PRE-FORCES") (h2 : m2.command = "@FORCES")
    (hexit : s.exit_flag = false) (hloc : s.local_exit_flag = false) :
    (s.most_recent_init = 1 → s.current_node = -1 → s.target_node = 0 →
      dispatch sim em (k + 1) s m1 (m2 :: rest) =
        Outcome.ok { md_setup sim s with current_node := -2 } (m2 :: rest) ∧
      engine_loop sim em (k + 2) s (m1 :: m2 :: rest) =
        engine_loop sim em (k + 1) { md_setup sim s with current_node := -2 } (m2 :: rest) ∧
      engine_loop sim em (k + 2) s (m1 :: m2 :: rest) =
        engine_loop sim em k { md_setup sim s with current_node := 3 } rest ∧
      (md_setup sim s).md_setup_calls = s.md_setup_calls + 1 ∧
      (md_setup sim s).target_node = 0 ∧ (md_setup sim s).local_exit_flag = false ∧
      (md_setup sim s).exit_flag = false) ∧
    (s.current_node ≠ -1 →
      engine_loop sim em (k + 1) s (m1 :: rest) =
        Outcome.ok { s with target_node := 2, local_exit_flag := false } rest) ∧
    (¬ (s.most_recent_init = 1 ∧ s.current_node = -1) → s.current_node ≠ -2 →
      engine_loop sim em (k + 1) s (m2 :: rest) =
        Outcome.ok { s with target_node := 3, local_exit_flag := false } rest) := by
  refine ⟨fun hi hc ht => ?_, fun hc => ?_, fun hc1 hc2 => ?_⟩
  · have hs : (md_setup sim s).target_node = 0 ∧ (md_setup sim s).local_exit_flag = false ∧
        (md_setup sim s).exit_flag = false := by
      simp [md_setup, integrate_setup, setup, ht, hloc, hexit]
    have hd1 : dispatch sim em (k + 1) s m1 (m2 :: rest) =
        Outcome.ok { md_setup sim s with current_node := -2 } (m2 :: rest) := by
      rw [dispatch_at_pre_forces sim em _ s m1 _ h1]
      simp [at_pre_forces, hc]
    have hl1 : engine_loop sim em (k + 2) s (m1 :: m2 :: rest) =
        engine_loop sim em (k + 1) { md_setup sim s with current_node := -2 } (m2 :: rest) := by
      rw [engine_loop_step sim em (k + 1) s m1 _ hexit hloc, hd1]
      simp only [Outcome.andThen, Outcome.ok]
      rw [check_target_no_target { md_setup sim s with current_node := -2 } hs.1]
    have hl2 : engine_loop sim em (k + 1) { md_setup sim s with current_node := -2 }
        (m2 :: rest) = engine_loop sim em k { md_setup sim s with current_node := 3 } rest := by
      have he2 : ({ md_setup sim s with current_node := -2 } : FixMDI).exit_flag = false := hs.2.2
      have hl2 : ({ md_setup sim s with current_node := -2 } : FixMDI).local_exit_flag = false :=
        hs.2.1
      rw [engine_loop_step sim em k { md_setup sim s with current_node := -2 } m2 rest he2 hl2,
        dispatch_at_forces sim em _ _ m2 _ h2]
      have ha : at_forces sim { md_setup sim s with current_node := -2 } =
          { md_setup sim s with current_node := 3 } := by
        simp [at_forces]
      rw [ha]
      simp only [Outcome.andThen, Outcome.ok]
      rw [check_target_no_target { md_setup sim s with current_node := 3 } hs.1]
    exact ⟨hd1, hl1, hl1.trans hl2, rfl, hs.1, hs.2.1, hs.2.2⟩
  · rw [engine_loop_step sim em k s m1 rest hexit hloc, dispatch_at_pre_forces sim em _ s m1 _ h1]
    have ha : at_pre_forces sim s = { s with target_node := 2, local_exit_flag := true } := by
      simp [at_pre_forces, hc]
    rw [ha]
    simp only [Outcome.andThen, Outcome.ok]
    rw [engine_loop_done sim em k _ rest (Or.inr (by unfold check_target; split <;> rfl))]
    unfold check_target
    split <;> rfl
  · rw [engine_loop_step sim em k s m2 rest hexit hloc, dispatch_at_forces sim em _ s m2 _ h2]
    have ha : at_forces sim s = { s with target_node := 3, local_exit_flag := true } := by
      simp [at_forces, hc1, hc2]
    rw [ha]
    simp only [Outcome.andThen, Outcome.ok]
    rw [engine_loop_done sim em k _ rest (Or.inr (by unfold check_target; split <;> rfl))]
    unfold check_target
    split <;> rfl

/-- C17 at the engine after `MD_INIT`: `@PRE-FORCES`, `@FORCES` are both
answered by one loop, which then waits for the next command at node 3 with one
`md_setup` done and no target. -/
theorem C17_first_iteration_witness :
    ((Msg.of "@PRE-FORCES").command = "@PRE-FORCES" ∧ (Msg.of "@FORCES").command = "@FORCES" ∧
      demo_md.exit_flag = false ∧ demo_md.local_exit_flag = false ∧
      demo_md.most_recent_init = 1 ∧ demo_md.current_node = -1 ∧ demo_md.target_node = 0) ∧
    engine_loop demo_sim (engine_mode demo_sim 1) 2 demo_md
        [Msg.of "@PRE-FORCES", Msg.of "@FORCES"] =
      engine_loop demo_sim (engine_mode demo_sim 1) 0
        { md_setup demo_sim demo_md with current_node := 3 } [] ∧
    (engine_mode demo_sim 4 0 demo_engine
      [Msg.of "MD_INIT", Msg.of "@PRE-FORCES", Msg.of "@FORCES"]).status = Status.blocked ∧
    (engine_mode demo_sim 4 0 demo_engine
      [Msg.of "MD_INIT", Msg.of "@PRE-FORCES", Msg.of "@FORCES"]).state.current_node = 3 ∧
    (engine_mode demo_sim 4 0 demo_engine
      [Msg.of "MD_INIT", Msg.of "@PRE-FORCES", Msg.of "@FORCES"]).state.md_setup_calls = 1 ∧
    (engine_mode demo_sim 4 0 demo_engine
      [Msg.of "MD_INIT", Msg.of "@PRE-FORCES", Msg.of "@FORCES"]).state.target_node = 0 :=
  ⟨⟨rfl, rfl, by decide!, by decide!, by decide!, by decide!, by decide!⟩,
    ((C17_first_iteration demo_sim (engine_mode demo_sim 1) 0 demo_md (Msg.of "@PRE-FORCES")
      (Msg.of "@FORCES") [] rfl rfl (by decide!) (by decide!)).1 (by decide!) (by decide!)
      (by decide!)).2.2.1,
    by decide!, by decide!, by decide!, by decide!⟩

/-! ## C18: `local_exit_flag` is transient -/

theorem engine_loop_clean (sim : Sim) (em : EngineMode) (k : Nat) :
    ∀ (s : FixMDI) (inp : List Msg), (engine_loop sim em k s inp).status = Status.ok →
      (engine_loop sim em k s inp).state.local_exit_flag = false := by
  induction k with
  | zero =>
    intro s inp
    unfold engine_loop
    split
    · intro _; rfl
    · intro h; cases h
  | succ k ih =>
    intro s inp
    unfold engine_loop
    split
    · intro _; rfl
    · cases inp with
      | nil => intro h; cases h
      | cons m rest =>
        simp only [Outcome.andThen]
        split
        · exact ih _ _
        · rename_i hne
          intro h
          exact absurd h (by intro h2; exact hne h2)

theorem engine_mode_clean (sim : Sim) (n : Nat) (node : Int) (s : FixMDI) (inp : List Msg)
    (h : (engine_mode sim n node s inp).status = Status.ok) :
    (engine_mode sim n node s inp).state.local_exit_flag = false := by
  cases n with
  | zero => cases h
  | succ n => exact engine_loop_clean sim _ _ _ _ h

theorem callback_agree (sim : Sim) {em1 em2 : EngineMode}
    (hag : ∀ node s inp, s.local_exit_flag = false → em1 node s inp = em2 node s inp)
    (c : Callback) (s : FixMDI) (inp : List Msg) (hs : s.local_exit_flag = false) :
    callback sim em1 c s inp = callback sim em2 c s inp := by
  cases c
  · rfl
  · exact hag 1 s inp hs
  · exact hag 2 { s with potential_energy := sim.pe_compute s.atoms } inp hs
  · exact hag 1 s inp hs
  · exact hag 2 s inp hs
  · exact hag 3 s inp hs
  · simp only [callback]
    rw [hag 3 s inp hs]

theorem callback_clean (sim : Sim) {em : EngineMode}
    (hcl : ∀ node s inp, (em node s inp).status = Status.ok →
      (em node s inp).state.local_exit_flag = false)
    (c : Callback) (s : FixMDI) (inp : List Msg) (hs : s.local_exit_flag = false)
    (h : (callback sim em c s inp).status = Status.ok) :
    (callback sim em c s inp).state.local_exit_flag = false := by
  cases c
  · exact hs
  · exact hcl _ _ _ h
  · exact hcl _ _ _ h
  · exact hcl _ _ _ h
  · exact hcl _ _ _ h
  · exact hcl _ _ _ h
  · simp only [callback] at h ⊢
    split
    · exact hs
    · rename_i h1
      simp only [h1, if_false] at h
      split
      · rename_i h2
        simp only [h2, if_true] at h
        exact hcl _ _ _ h
      · exact hs

theorem run_events_agree (sim : Sim) {em1 em2 : EngineMode}
    (hag : ∀ node s inp, s.local_exit_flag = false → em1 node s inp = em2 node s inp)
    (hcl : ∀ node s inp, (em2 node s inp).status = Status.ok →
      (em2 node s inp).state.local_exit_flag = false)
    (es : List Event) :
    ∀ (s : FixMDI) (inp : List Msg), s.local_exit_flag = false →
      run_events sim em1 es s inp = run_events sim em2 es s inp := by
  induction es with
  | nil => intro s inp _; rfl
  | cons e es ih =>
    intro s inp hs
    cases e with
    | callback c =>
      simp only [run_events, callback_agree sim hag c s inp hs, Outcome.andThen]
      split
      · rename_i hok
        exact ih _ _ (callback_clean sim hcl c s inp hs hok)
      · rfl
    | physics k =>
      simp only [run_events]
      exact ih _ _ hs

theorem timestep_agree (sim : Sim) {em1 em2 : EngineMode}
    (hag : ∀ node s inp, s.local_exit_flag = false → em1 node s inp = em2 node s inp)
    (hcl : ∀ node s inp, (em2 node s inp).status = Status.ok →
      (em2 node s inp).state.local_exit_flag = false)
    (s : FixMDI) (rest : List Msg) (hs : s.local_exit_flag = false) :
    timestep sim em1 s rest = timestep sim em2 s rest := by
  unfold timestep
  rw [run_events_agree sim hag hcl sim.run { s with run_calls := s.run_calls + 1 } rest hs]

theorem optg_init_agree (sim : Sim) {em1 em2 : EngineMode}
    (hag : ∀ node s inp, s.local_exit_flag = false → em1 node s inp = em2 node s inp)
    (hcl : ∀ node s inp, (em2 node s inp).status = Status.ok →
      (em2 node s inp).state.local_exit_flag = false)
    (s : FixMDI) (rest : List Msg) (hs : s.local_exit_flag = false) :
    optg_init sim em1 s rest = optg_init sim em2 s rest := by
  unfold optg_init
  rw [run_events_agree sim hag hcl sim.iterate
    { minimize_setup sim s with current_node := -1, most_recent_init := 2 } rest hs]

theorem atom_step_loop_agree (sim : Sim) {em1 em2 : EngineMode}
    (hag : ∀ node s inp, s.local_exit_flag = false → em1 node s inp = em2 node s inp)
    (hcl : ∀ node s inp, (em2 node s inp).status = Status.ok →
      (em2 node s inp).state.local_exit_flag = false)
    (k : Nat) :
    ∀ (s : FixMDI) (rest : List Msg),
      atom_step_loop sim em1 k s rest = atom_step_loop sim em2 k s rest := by
  induction k with
  | zero => intro s rest; rfl
  | succ k ih =>
    intro s rest
    unfold atom_step_loop
    split
    · rename_i hcond
      have hs : s.local_exit_flag = false := by
        simp only [atom_step_again, Bool.and_eq_true, Bool.not_eq_true'] at hcond
        exact hcond.2
      rw [timestep_agree sim hag hcl s rest hs]
      simp only [Outcome.andThen]
      split
      · exact ih _ _
      · rfl
    · rfl

theorem atom_step_agree (sim : Sim) {em1 em2 : EngineMode}
    (hag : ∀ node s inp, s.local_exit_flag = false → em1 node s inp = em2 node s inp)
    (hcl : ∀ node s inp, (em2 node s inp).status = Status.ok →
      (em2 node s inp).state.local_exit_flag = false)
    (k : Nat) (s : FixMDI) (rest : List Msg) (hs : s.local_exit_flag = false) :
    atom_step sim em1 k s rest = atom_step sim em2 k s rest := by
  unfold atom_step
  simp only []
  have h1 : ({ (if s.current_node = -1 then md_setup sim s else s) with
      target_node := 1 } : FixMDI).local_exit_flag = false := by
    split <;> simpa [md_setup, integrate_setup, setup] using hs
  rw [timestep_agree sim hag hcl _ rest h1]
  simp only [Outcome.andThen]
  split
  · exact atom_step_loop_agree sim hag hcl k _ _
  · rfl

theorem dispatch_agree (sim : Sim) {em1 em2 : EngineMode}
    (hag : ∀ node s inp, s.local_exit_flag = false → em1 node s inp = em2 node s inp)
    (hcl : ∀ node s inp, (em2 node s inp).status = Status.ok →
      (em2 node s inp).state.local_exit_flag = false)
    (k : Nat) (s : FixMDI) (m : Msg) (rest : List Msg) (hs : s.local_exit_flag = false) :
    dispatch sim em1 k s m rest = dispatch sim em2 k s m rest := by
  unfold dispatch
  rw [optg_init_agree sim hag hcl s rest hs, atom_step_agree sim hag hcl k s rest hs]

theorem engine_loop_agree (sim : Sim) {em1 em2 : EngineMode}
    (hag : ∀ node s inp, s.local_exit_flag = false → em1 node s inp = em2 node s inp)
    (hcl : ∀ node s inp, (em2 node s inp).status = Status.ok →
      (em2 node s inp).state.local_exit_flag = false)
    (k : Nat) :
    ∀ (s : FixMDI) (inp : List Msg),
      engine_loop sim em1 k s inp = engine_loop sim em2 k s inp := by
  induction k with
  | zero => intro s inp; rfl
  | succ k ih =>
    intro s inp
    unfold engine_loop
    split
    · rfl
    · rename_i hflags
      cases inp with
      | nil => rfl
      | cons m rest =>
        have hs : s.local_exit_flag = false := by
          cases h : s.local_exit_flag
          · rfl
          · exact absurd (by simp [h]) hflags
        simp only [dispatch_agree sim hag hcl k s m rest hs, Outcome.andThen]
        split
        · exact ih _ _
        · rfl

theorem engine_mode_checked_eq (sim : Sim) (n : Nat) :
    ∀ (node : Int) (s : FixMDI) (inp : List Msg), s.local_exit_flag = false →
      engine_mode_checked sim n node s inp = engine_mode sim n node s inp := by
  induction n with
  | zero => intro node s inp _; rfl
  | succ n ih =>
    intro node s inp hs
    simp only [engine_mode_checked, engine_mode, hs, Bool.false_eq_true, if_false]
    exact engine_loop_agree sim ih (engine_mode_clean sim n) (n + 1) _ _

/-- C18 (`local_exit_flag` is transient). The constructor leaves the flag
clear; every return of `engine_mode`, for every budget, entry node, state and
driver input, leaves it clear. Consequently every `engine_mode` call is entered
with the flag clear, the nested calls made by the callbacks during `ATOM_STEP`
and `OPTG_INIT` included: the engine that asserts this at every entry
(`engine_mode_checked`, which reports a set flag as `fault`) behaves exactly like
`engine_mode` whenever the outermost call starts with the flag clear. -/
theorem C18_local_exit_transient (sim : Sim) (n : Nat) (node : Int) (s : FixMDI)
    (inp : List Msg) (cn tn natoms ntypes : Int) (groupbit : Nat) (atoms : List (List Atom))
    (mass celldata : List ℚ) (pe : ℚ) :
    (FixMDI.create cn tn natoms ntypes groupbit atoms mass celldata pe).local_exit_flag = false ∧
    ((engine_mode sim n node s inp).status = Status.ok →
      (engine_mode sim n node s inp).state.local_exit_flag = false) ∧
    (s.local_exit_flag = false →
      engine_mode_checked sim n node s inp = engine_mode sim n node s inp) ∧
    (s.local_exit_flag = true →
      engine_mode_checked sim (n + 1) node s inp = ⟨Status.fault, s, inp⟩) :=
  ⟨rfl, engine_mode_clean sim n node s inp, engine_mode_checked_eq sim n node s inp,
    fun h => by simp [engine_mode_checked, h]⟩

/-- C18 on scenario 1 from the fresh engine: the asserting engine agrees with
`engine_mode`, so no nested entry during `ATOM_STEP` found the flag set. -/
theorem C18_local_exit_transient_witness :
    demo_engine.local_exit_flag = false ∧
    engine_mode_checked demo_sim 4 0 demo_engine scenario1 =
      engine_mode demo_sim 4 0 demo_engine scenario1 :=
  ⟨by decide!, (C18_local_exit_transient demo_sim 4 0 demo_engine scenario1 0 0 0 0 0 [] [] []
    0).2.2.1 (by decide!)⟩

/-! ## The bookkeeping counters -/

theorem three_ne_minus_one : (3 : Int) ≠ -1 := by decide

theorem quiet_trans {s : FixMDI} {o o2 : Outcome} (h1 : Quiet s o) (h2 : Quiet o.state o2) :
    Quiet s o2 := by
  refine ⟨le_trans h1.1 h2.1, fun hi => ?_⟩
  obtain ⟨a1, b1, c1⟩ := h1.2 hi
  obtain ⟨a2, b2, c2⟩ := h2.2 (by rw [a1]; exact hi)
  exact ⟨a2.trans a1, b2.trans b1, fun hc => c2 (c1 hc)⟩

theorem steady_trans {s : FixMDI} {o o2 : Outcome} (h1 : Steady s o) (h2 : Steady o.state o2) :
    Steady s o2 := by
  refine ⟨le_trans h1.1 h2.1, fun hi => ?_⟩
  obtain ⟨a1, c1⟩ := h1.2 hi
  obtain ⟨a2, c2⟩ := h2.2 (by rw [a1]; exact hi)
  refine ⟨a2.trans a1, fun hc => ?_⟩
  obtain ⟨d1, e1⟩ := c1 hc
  obtain ⟨d2, e2⟩ := c2 d1
  exact ⟨d2, e2.trans e1⟩

theorem quiet_steady {s : FixMDI} {o : Outcome} (h : Quiet s o) : Steady s o :=
  ⟨h.1, fun hi => ⟨(h.2 hi).1, fun hc => ⟨(h.2 hi).2.2 hc, (h.2 hi).2.1⟩⟩⟩

theorem quiet_andThen {s : FixMDI} {o : Outcome} {k : FixMDI → List Msg → Outcome}
    (h1 : Quiet s o) (h2 : ∀ s1 r1, Quiet s1 (k s1 r1)) : Quiet s (o.andThen k) := by
  unfold Outcome.andThen
  split
  · exact quiet_trans h1 (h2 _ _)
  · exact h1

theorem steady_andThen {s : FixMDI} {o : Outcome} {k : FixMDI → List Msg → Outcome}
    (h1 : Steady s o) (h2 : ∀ s1 r1, Steady s1 (k s1 r1)) : Steady s (o.andThen k) := by
  unfold Outcome.andThen
  split
  · exact steady_trans h1 (h2 _ _)
  · exact h1

theorem quiet_of_fields {s s1 : FixMDI} (st : Status) (rest : List Msg)
    (hr : s1.run_calls = s.run_calls) (hi : s1.most_recent_init = s.most_recent_init)
    (hm : s1.md_setup_calls = s.md_setup_calls) (hc : s1.current_node = s.current_node) :
    Quiet s ⟨st, s1, rest⟩ :=
  ⟨le_of_eq hr.symm, fun _ => ⟨hi, hm, fun h => by simpa [hc] using h⟩⟩

theorem quiet_callback (sim : Sim) {em : EngineMode} (hem : QuietAll em) (c : Callback)
    (s : FixMDI) (inp : List Msg) : Quiet s (callback sim em c s inp) := by
  have hq : ∀ (node : Int) (s1 : FixMDI), node ≠ -1 → s1.run_calls = s.run_calls →
      s1.most_recent_init = s.most_recent_init → s1.md_setup_calls = s.md_setup_calls →
      s1.current_node = s.current_node → Quiet s (em node s1 inp) := by
    intro node s1 hn hr hi hm hc
    have h := hem node s1 inp hn
    refine ⟨by rw [← hr]; exact h.1, fun h0 => ?_⟩
    obtain ⟨a, b, c⟩ := h.2 (by rw [hi]; exact h0)
    exact ⟨a.trans hi, b.trans hm, fun h1 => c (by rw [hc]; exact h1)⟩
  cases c
  · exact quiet_of_fields _ _ rfl rfl rfl rfl
  · exact hq 1 s (by decide) rfl rfl rfl rfl
  · exact hq 2 { s with potential_energy := sim.pe_compute s.atoms } (by decide) rfl rfl rfl rfl
  · exact hq 1 s (by decide) rfl rfl rfl rfl
  · exact hq 2 s (by decide) rfl rfl rfl rfl
  · exact hq 3 s (by decide) rfl rfl rfl rfl
  · simp only [callback]
    split
    · exact ⟨le_refl _, fun _ => ⟨rfl, rfl, fun _ => three_ne_minus_one⟩⟩
    · split
      · exact hq 3 s (by decide) rfl rfl rfl rfl
      · exact quiet_of_fields _ _ rfl rfl rfl rfl

theorem quiet_run_events (sim : Sim) {em : EngineMode} (hem : QuietAll em) (es : List Event) :
    ∀ s inp, Quiet s (run_events sim em es s inp) := by
  induction es with
  | nil => intro s inp; exact quiet_of_fields _ _ rfl rfl rfl rfl
  | cons e es ih =>
    intro s inp
    cases e with
    | callback c =>
      simp only [run_events]
      exact quiet_andThen (quiet_callback sim hem c s inp) ih
    | physics k =>
      simp only [run_events]
      exact ih { s with atoms := sim.physics k s.atoms } inp

theorem quiet_timestep (sim : Sim) {em : EngineMode} (hem : QuietAll em) (s : FixMDI)
    (rest : List Msg) : Quiet s (timestep sim em s rest) := by
  unfold timestep
  split
  · split
    · have h := quiet_run_events sim hem sim.run { s with run_calls := s.run_calls + 1 } rest
      exact ⟨le_trans (Nat.le_succ _) h.1, h.2⟩
    · exact quiet_of_fields _ _ rfl rfl rfl rfl
  · split <;> exact quiet_of_fields _ _ rfl rfl rfl rfl

theorem quiet_atom_step_loop (sim : Sim) {em : EngineMode} (hem : QuietAll em) (k : Nat) :
    ∀ s rest, Quiet s (atom_step_loop sim em k s rest) := by
  induction k with
  | zero =>
    intro s rest
    unfold atom_step_loop
    split <;> exact quiet_of_fields _ _ rfl rfl rfl rfl
  | succ k ih =>
    intro s rest
    unfold atom_step_loop
    split
    · exact quiet_andThen (quiet_timestep sim hem s rest) ih
    · exact quiet_of_fields _ _ rfl rfl rfl rfl

theorem quiet_stepping (sim : Sim) {em : EngineMode} (hem : QuietAll em) (k : Nat) (s : FixMDI)
    (rest : List Msg) :
    Quiet s ((timestep sim em { s with target_node := 1 } rest).andThen
      (fun s2 r2 => atom_step_loop sim em k s2 r2)) :=
  quiet_andThen (quiet_timestep sim hem { s with target_node := 1 } rest)
    (quiet_atom_step_loop sim hem k)

theorem atom_step_first (sim : Sim) (em : EngineMode) (k : Nat) (s : FixMDI) (rest : List Msg)
    (hc : s.current_node = -1) :
    atom_step sim em k s rest =
      (timestep sim em { md_setup sim s with target_node := 1 } rest).andThen
        (fun s2 r2 => atom_step_loop sim em k s2 r2) := by
  simp [atom_step, hc]

theorem atom_step_later (sim : Sim) (em : EngineMode) (k : Nat) (s : FixMDI) (rest : List Msg)
    (hc : s.current_node ≠ -1) :
    atom_step sim em k s rest =
      (timestep sim em { s with target_node := 1 } rest).andThen
        (fun s2 r2 => atom_step_loop sim em k s2 r2) := by
  simp [atom_step, hc]

theorem steady_atom_step (sim : Sim) {em : EngineMode} (hem : QuietAll em) (k : Nat)
    (s : FixMDI) (rest : List Msg) : Steady s (atom_step sim em k s rest) := by
  by_cases hc : s.current_node = -1
  · rw [atom_step_first sim em k s rest hc]
    have h := quiet_stepping sim hem k (md_setup sim s) rest
    exact ⟨h.1, fun hi => ⟨(h.2 hi).1, fun hn => absurd hc hn⟩⟩
  · rw [atom_step_later sim em k s rest hc]
    exact quiet_steady (quiet_stepping sim hem k s rest)

theorem steady_of_quiet_fields {s s1 : FixMDI} (st : Status) (rest : List Msg)
    (hr : s1.run_calls = s.run_calls) (hi : s1.most_recent_init = s.most_recent_init)
    (hm : s1.md_setup_calls = s.md_setup_calls) (hc : s1.current_node = s.current_node) :
    Steady s ⟨st, s1, rest⟩ :=
  quiet_steady (quiet_of_fields st rest hr hi hm hc)

theorem steady_receive_coordinates (sim : Sim) (s : FixMDI) (m : Msg) (rest : List Msg) :
    Steady s (receive_coordinates sim s m rest) := by
  unfold receive_coordinates
  split
  · exact steady_of_quiet_fields _ _ rfl rfl rfl rfl
  · split <;> exact steady_of_quiet_fields _ _ rfl rfl rfl rfl

theorem steady_send_coordinates (sim : Sim) (s : FixMDI) (rest : List Msg) :
    Steady s (send_coordinates sim s rest) := by
  unfold send_coordinates
  split <;> exact steady_of_quiet_fields _ _ rfl rfl rfl rfl

theorem steady_send_charges (sim : Sim) (s : FixMDI) (rest : List Msg) :
    Steady s (send_charges sim s rest) := by
  unfold send_charges
  split <;> exact steady_of_quiet_fields _ _ rfl rfl rfl rfl

theorem steady_send_forces (sim : Sim) (s : FixMDI) (rest : List Msg) :
    Steady s (send_forces sim s rest) := by
  unfold send_forces
  simp only
  split <;> exact steady_of_quiet_fields _ _ rfl rfl rfl rfl

theorem steady_receive_forces (sim : Sim) (s : FixMDI) (m : Msg) (rest : List Msg) :
    Steady s (receive_forces sim s m rest) := by
  unfold receive_forces
  split
  · exact steady_of_quiet_fields _ _ rfl rfl rfl rfl
  · split <;> exact steady_of_quiet_fields _ _ rfl rfl rfl rfl

theorem steady_add_forces (sim : Sim) (s : FixMDI) (m : Msg) (rest : List Msg) :
    Steady s (add_forces sim s m rest) := by
  unfold add_forces
  split
  · exact steady_of_quiet_fields _ _ rfl rfl rfl rfl
  · split <;> exact steady_of_quiet_fields _ _ rfl rfl rfl rfl

theorem steady_send_types (s : FixMDI) (rest : List Msg) : Steady s (send_types s rest) := by
  unfold send_types
  simp only
  split <;> exact steady_of_quiet_fields _ _ rfl rfl rfl rfl

theorem steady_send_masses (s : FixMDI) (rest : List Msg) : Steady s (send_masses s rest) := by
  unfold send_masses
  split <;> exact steady_of_quiet_fields _ _ rfl rfl rfl rfl

theorem steady_md_init (sim : Sim) (s : FixMDI) (rest : List Msg) :
    Steady s (md_init sim s rest) := by
  unfold md_init
  split
  · exact steady_of_quiet_fields _ _ rfl rfl rfl rfl
  · rename_i h
    exact ⟨le_refl _, fun hi => absurd hi h⟩

theorem steady_optg_init (sim : Sim) {em : EngineMode} (hem : QuietAll em) (s : FixMDI)
    (rest : List Msg) : Steady s (optg_init sim em s rest) := by
  unfold optg_init
  split
  · exact steady_of_quiet_fields _ _ rfl rfl rfl rfl
  · rename_i h
    have hq := quiet_run_events sim hem sim.iterate
      { minimize_setup sim s with current_node := -1, most_recent_init := 2 } rest
    exact ⟨hq.1, fun hi => absurd hi h⟩

theorem steady_at_pre_forces (sim : Sim) (s : FixMDI) (rest : List Msg) :
    Steady s (Outcome.ok (at_pre_forces sim s) rest) := by
  unfold at_pre_forces
  split
  · rename_i hc
    exact ⟨le_refl _, fun _ => ⟨rfl, fun hn => absurd hc hn⟩⟩
  · exact steady_of_quiet_fields _ _ rfl rfl rfl rfl

theorem steady_at_forces (sim : Sim) (s : FixMDI) (rest : List Msg) :
    Steady s (Outcome.ok (at_forces sim s) rest) := by
  unfold at_forces
  split
  · rename_i hc
    exact ⟨le_refl _, fun _ => ⟨rfl, fun hn => absurd hc.2 hn⟩⟩
  · split
    · exact ⟨le_refl _, fun _ => ⟨rfl, fun _ => ⟨three_ne_minus_one, rfl⟩⟩⟩
    · exact steady_of_quiet_fields _ _ rfl rfl rfl rfl

theorem steady_dispatch (sim : Sim) {em : EngineMode} (hem : QuietAll em) (k : Nat) (s : FixMDI)
    (m : Msg) (rest : List Msg) : Steady s (dispatch sim em k s m rest) := by
  unfold dispatch
  refine ite_pred (Steady s) (steady_of_quiet_fields _ _ rfl rfl rfl rfl) ?_
  refine ite_pred (Steady s) (steady_of_quiet_fields _ _ rfl rfl rfl rfl) ?_
  refine ite_pred (Steady s) (steady_of_quiet_fields _ _ rfl rfl rfl rfl) ?_
  refine ite_pred (Steady s) (steady_of_quiet_fields _ _ rfl rfl rfl rfl) ?_
  refine ite_pred (Steady s) (steady_send_types _ _) ?_
  refine ite_pred (Steady s) (steady_send_masses _ _) ?_
  refine ite_pred (Steady s) (steady_of_quiet_fields _ _ rfl rfl rfl rfl) ?_
  refine ite_pred (Steady s) (steady_receive_coordinates _ _ _ _) ?_
  refine ite_pred (Steady s) (steady_send_coordinates _ _ _) ?_
  refine ite_pred (Steady s) (steady_send_charges _ _ _) ?_
  refine ite_pred (Steady s) (steady_of_quiet_fields _ _ rfl rfl rfl rfl) ?_
  refine ite_pred (Steady s) (steady_send_forces _ _ _) ?_
  refine ite_pred (Steady s) (steady_receive_forces _ _ _ _) ?_
  refine ite_pred (Steady s) (steady_add_forces _ _ _ _) ?_
  refine ite_pred (Steady s) (steady_md_init _ _ _) ?_
  refine ite_pred (Steady s) (steady_optg_init sim hem _ _) ?_
  refine ite_pred (Steady s) (steady_atom_step sim hem _ _ _) ?_
  refine ite_pred (Steady s) (steady_at_pre_forces _ _ _) ?_
  refine ite_pred (Steady s) (steady_at_forces _ _ _) ?_
  refine ite_pred (Steady s) (steady_of_quiet_fields _ _ rfl rfl rfl rfl) ?_
  exact steady_of_quiet_fields _ _ rfl rfl rfl rfl

theorem steady_check_target (s : FixMDI) (o : Outcome) (h : Steady (check_target s) o) :
    Steady s o := by
  have hc : (check_target s).run_calls = s.run_calls ∧
      (check_target s).most_recent_init = s.most_recent_init ∧
      (check_target s).current_node = s.current_node ∧
      (check_target s).md_setup_calls = s.md_setup_calls := by
    unfold check_target
    split <;> exact ⟨rfl, rfl, rfl, rfl⟩
  obtain ⟨h1, h2, h3, h4⟩ := hc
  refine ⟨by rw [← h1]; exact h.1, fun hi => ?_⟩
  obtain ⟨a, b⟩ := h.2 (by rw [h2]; exact hi)
  refine ⟨a.trans h2, fun hn => ?_⟩
  obtain ⟨c, d⟩ := b (by rw [h3]; exact hn)
  exact ⟨c, d.trans h4⟩

theorem steady_engine_loop (sim : Sim) {em : EngineMode} (hem : QuietAll em) (k : Nat) :
    ∀ s inp, Steady s (engine_loop sim em k s inp) := by
  induction k with
  | zero =>
    intro s inp
    unfold engine_loop
    split <;> exact steady_of_quiet_fields _ _ rfl rfl rfl rfl
  | succ k ih =>
    intro s inp
    unfold engine_loop
    split
    · exact steady_of_quiet_fields _ _ rfl rfl rfl rfl
    · cases inp with
      | nil => exact steady_of_quiet_fields _ _ rfl rfl rfl rfl
      | cons m rest =>
        exact steady_andThen (steady_dispatch sim hem k s m rest)
          (fun s1 r1 => steady_check_target s1 _ (ih _ _))

theorem quiet_engine_mode (sim : Sim) (n : Nat) : QuietAll (engine_mode sim n) := by
  induction n with
  | zero =>
    intro node s inp _
    exact quiet_of_fields _ _ rfl rfl rfl rfl
  | succ n ih =>
    intro node s inp hn
    have h := steady_check_target _ _
      (steady_engine_loop sim ih (n + 1) (check_target { s with current_node := node }) inp)
    refine ⟨h.1, fun hi => ?_⟩
    obtain ⟨a, b⟩ := h.2 hi
    obtain ⟨c, d⟩ := b hn
    exact ⟨a, d, fun _ => c⟩

/-! ## C13: the bootstrap happens once -/

theorem andThen_ok {o : Outcome} {k : FixMDI → List Msg → Outcome}
    (h : (o.andThen k).status = Status.ok) :
    o.status = Status.ok ∧ o.andThen k = k o.state o.rest := by
  by_cases hs : o.status = Status.ok
  · refine ⟨hs, ?_⟩
    unfold Outcome.andThen
    rw [hs]
  · exfalso
    apply hs
    unfold Outcome.andThen at h
    split at h <;> assumption

theorem timestep_run (sim : Sim) (em : EngineMode) (s : FixMDI) (rest : List Msg)
    (hi : s.most_recent_init = 1)
    (hc : s.current_node = -2 ∨ s.current_node = -1 ∨ s.current_node = 3) :
    timestep sim em s rest =
      run_events sim em sim.run { s with run_calls := s.run_calls + 1 } rest := by
  unfold timestep
  rw [if_pos hi, if_pos hc]

theorem run_events_reaches (sim : Sim) {em : EngineMode} (hem : QuietAll em) (es : List Event) :
    ∀ (s : FixMDI) (inp : List Msg), s.most_recent_init = 1 →
      Event.callback Callback.end_of_step ∈ es →
      (run_events sim em es s inp).status = Status.ok →
      (run_events sim em es s inp).state.current_node ≠ -1 := by
  induction es with
  | nil => intro s inp _ hmem; cases hmem
  | cons e es ih =>
    intro s inp hi hmem hok
    have h1 : (1 : Int) ≠ 0 := by decide
    cases e with
    | callback c =>
      simp only [run_events] at hok ⊢
      obtain ⟨hcok, heq⟩ := andThen_ok hok
      rw [heq]
      have hq := quiet_callback sim hem c s inp
      have hi1 : (callback sim em c s inp).state.most_recent_init = 1 :=
        ((hq.2 (by rw [hi]; exact h1)).1).trans hi
      rw [heq] at hok
      by_cases hc : c = Callback.end_of_step
      · subst hc
        have hq2 := quiet_run_events sim hem es (callback sim em Callback.end_of_step s inp).state
          (callback sim em Callback.end_of_step s inp).rest
        refine (hq2.2 (by rw [hi1]; exact h1)).2.2 ?_
        simp [callback, hi, Outcome.ok]
      · have hmem2 : Event.callback Callback.end_of_step ∈ es := by
          rcases List.mem_cons.mp hmem with h | h
          · exact absurd (Event.callback.inj h).symm hc
          · exact h
        exact ih _ _ hi1 hmem2 hok
    | physics k =>
      simp only [run_events] at hok ⊢
      have hmem2 : Event.callback Callback.end_of_step ∈ es := by
        rcases List.mem_cons.mp hmem with h | h
        · cases h
        · exact h
      exact ih _ _ hi hmem2 hok

/-- C13 (the bootstrap happens once). When `ATOM_STEP` is dispatched with
`most_recent_init = 1` and `current_node = -1`, `md_setup` is called once, before
the integrator is run: the run starts from the state that `md_setup` produced,
and at the end of the handler the `md_setup` counter is up by exactly one while
the run counter is up by at least one. When the schedule of `run(1)` contains
`end_of_step` and the handler returns, `current_node` is no longer -1. In every
state with an initialisation and `current_node ≠ -1` a further `ATOM_STEP` leaves
the `md_setup` counter unchanged, and so does every `engine_mode` call entered at
a node other than -1. -/
theorem C13_bootstrap_once (sim : Sim) (n k : Nat) (s : FixMDI) (rest : List Msg)
    (hi : s.most_recent_init = 1) (hc : s.current_node = -1) :
    atom_step sim (engine_mode sim n) k s rest =
      (run_events sim (engine_mode sim n) sim.run
        { md_setup sim s with target_node := 1, run_calls := s.run_calls + 1 } rest).andThen
        (fun s2 r2 => atom_step_loop sim (engine_mode sim n) k s2 r2) ∧
    (md_setup sim s).md_setup_calls = s.md_setup_calls + 1 ∧
    (md_setup sim s).run_calls = s.run_calls ∧
    (atom_step sim (engine_mode sim n) k s rest).state.md_setup_calls = s.md_setup_calls + 1 ∧
    s.run_calls + 1 ≤ (atom_step sim (engine_mode sim n) k s rest).state.run_calls ∧
    (Event.callback Callback.end_of_step ∈ sim.run →
      (atom_step sim (engine_mode sim n) k s rest).status = Status.ok →
      (atom_step sim (engine_mode sim n) k s rest).state.current_node ≠ -1) ∧
    (∀ (k2 : Nat) (s2 : FixMDI) (rest2 : List Msg),
      s2.most_recent_init ≠ 0 → s2.current_node ≠ -1 →
      (atom_step sim (engine_mode sim n) k2 s2 rest2).state.md_setup_calls =
        s2.md_setup_calls) ∧
    (∀ (node : Int) (s2 : FixMDI) (inp : List Msg), node ≠ -1 → s2.most_recent_init ≠ 0 →
      (engine_mode sim n node s2 inp).state.md_setup_calls = s2.md_setup_calls) := by
  have hem := quiet_engine_mode sim n
  have h10 : (1 : Int) ≠ 0 := by decide
  have hts : timestep sim (engine_mode sim n) { md_setup sim s with target_node := 1 } rest =
      run_events sim (engine_mode sim n) sim.run
        { md_setup sim s with target_node := 1, run_calls := s.run_calls + 1 } rest := by
    exact timestep_run sim _ { md_setup sim s with target_node := 1 } rest hi (Or.inr (Or.inl hc))
  have hstep : atom_step sim (engine_mode sim n) k s rest =
      (run_events sim (engine_mode sim n) sim.run
        { md_setup sim s with target_node := 1, run_calls := s.run_calls + 1 } rest).andThen
        (fun s2 r2 => atom_step_loop sim (engine_mode sim n) k s2 r2) := by
    rw [atom_step_first sim _ k s rest hc, hts]
  have hq : Quiet { md_setup sim s with target_node := 1, run_calls := s.run_calls + 1 }
      (atom_step sim (engine_mode sim n) k s rest) := by
    rw [hstep]
    exact quiet_andThen (quiet_run_events sim hem sim.run _ rest) (quiet_atom_step_loop sim hem k)
  have hi2 : ({ md_setup sim s with target_node := 1, run_calls := s.run_calls + 1 } :
      FixMDI).most_recent_init ≠ 0 := by
    show s.most_recent_init ≠ 0
    rw [hi]
    exact h10
  refine ⟨hstep, rfl, rfl, (hq.2 hi2).2.1, hq.1, fun hmem hok => ?_, fun k2 s2 rest2 h1 h2 => ?_,
    fun node s2 inp hn h1 => ((hem node s2 inp hn).2 h1).2.1⟩
  · rw [hstep] at hok ⊢
    obtain ⟨hrok, heq⟩ := andThen_ok hok
    rw [heq]
    have hr := run_events_reaches sim hem sim.run
      { md_setup sim s with target_node := 1, run_calls := s.run_calls + 1 } rest hi hmem hrok
    have hri := ((quiet_run_events sim hem sim.run
      { md_setup sim s with target_node := 1, run_calls := s.run_calls + 1 } rest).2 hi2).1
    have hl := quiet_atom_step_loop sim hem k
      (run_events sim (engine_mode sim n) sim.run
        { md_setup sim s with target_node := 1, run_calls := s.run_calls + 1 } rest).state
      (run_events sim (engine_mode sim n) sim.run
        { md_setup sim s with target_node := 1, run_calls := s.run_calls + 1 } rest).rest
    exact (hl.2 (by rw [hri]; exact hi2)).2.2 hr
  · exact (((steady_atom_step sim hem k2 s2 rest2).2 h1).2 h2).2

/-- C13 on the engine after `MD_INIT` with the Verlet schedule: `ATOM_STEP`,
then `@FORCES` at node 1, then a second `ATOM_STEP` at node 3 give one
`md_setup` and two runs. -/
theorem C13_bootstrap_once_witness :
    (demo_md.most_recent_init = 1 ∧ demo_md.current_node = -1) ∧
    (atom_step demo_sim (engine_mode demo_sim 3) 3 demo_md
      [Msg.of "@FORCES"]).state.md_setup_calls = demo_md.md_setup_calls + 1 ∧
    (engine_loop demo_sim (engine_mode demo_sim 3) 3 demo_md
      [Msg.of "ATOM_STEP", Msg.of "@FORCES", Msg.of "ATOM_STEP"]).state.md_setup_calls = 1 ∧
    (engine_loop demo_sim (engine_mode demo_sim 3) 3 demo_md
      [Msg.of "ATOM_STEP", Msg.of "@FORCES", Msg.of "ATOM_STEP"]).state.run_calls = 2 :=
  ⟨⟨by decide!, by decide!⟩,
    (C13_bootstrap_once demo_sim 3 3 demo_md [Msg.of "@FORCES"] (by decide!)
      (by decide!)).2.2.2.1,
    by decide!, by decide!⟩

/-! ## C20: when a step is run -/

theorem atom_step_loop_stop (sim : Sim) (em : EngineMode) (k : Nat) (s : FixMDI)
    (rest : List Msg) (h : s.local_exit_flag = true) :
    atom_step_loop sim em k s rest = Outcome.ok s rest := by
  cases k <;> simp [atom_step_loop, atom_step_again, h]

theorem dispatch_atom_step (sim : Sim) (em : EngineMode) (k : Nat) (s : FixMDI) (m : Msg)
    (rest : List Msg) (hm : m.command = "ATOM_STEP") :
    dispatch sim em k s m rest = atom_step sim em k s rest := by
  simp [dispatch, hm]

theorem engine_loop_yield (sim : Sim) (em : EngineMode) (k : Nat) (s s1 : FixMDI) (m : Msg)
    (rest : List Msg) (hexit : s.exit_flag = false) (hloc : s.local_exit_flag = false)
    (hd : dispatch sim em k s m rest = Outcome.ok s1 rest) (h1 : s1.local_exit_flag = true) :
    engine_loop sim em (k + 1) s (m :: rest) =
      Outcome.ok { s1 with local_exit_flag := false } rest := by
  rw [engine_loop_step sim em k s m rest hexit hloc, hd]
  simp only [Outcome.andThen, Outcome.ok]
  rw [engine_loop_done sim em k _ rest (Or.inr (by unfold check_target; split <;> simp [h1]))]
  unfold check_target
  split <;> rfl

/-- C20 (when a step is run). `timestep` runs the integrator exactly when
`most_recent_init = 1` and `current_node` is -1, -2 or 3: then it is the run of
`run(1)` (counted once, before its callbacks), and only then the run counter has
changed when `timestep` ends. In MD mode at any other node it only sets
`local_exit_flag`; in OPTG mode it only sets `target_node = 1` and
`local_exit_flag`; without initialisation it changes nothing. In the two
non-running cases the loop that received `ATOM_STEP` returns with the rest of
the driver input unread. -/
theorem C20_timestep (sim : Sim) (n k : Nat) (s : FixMDI) (m : Msg) (rest : List Msg) :
    (s.most_recent_init = 1 →
      (s.current_node = -2 ∨ s.current_node = -1 ∨ s.current_node = 3) →
      timestep sim (engine_mode sim n) s rest =
        run_events sim (engine_mode sim n) sim.run { s with run_calls := s.run_calls + 1 }
          rest) ∧
    ((timestep sim (engine_mode sim n) s rest).state.run_calls ≠ s.run_calls ↔
      s.most_recent_init = 1 ∧
        (s.current_node = -2 ∨ s.current_node = -1 ∨ s.current_node = 3)) ∧
    (s.most_recent_init = 1 →
      ¬ (s.current_node = -2 ∨ s.current_node = -1 ∨ s.current_node = 3) →
      timestep sim (engine_mode sim n) s rest =
        Outcome.ok { s with local_exit_flag := true } rest) ∧
    (s.most_recent_init = 2 →
      timestep sim (engine_mode sim n) s rest =
        Outcome.ok { s with target_node := 1, local_exit_flag := true } rest) ∧
    (s.most_recent_init ≠ 1 → s.most_recent_init ≠ 2 →
      timestep sim (engine_mode sim n) s rest = Outcome.ok s rest) ∧
    (m.command = "ATOM_STEP" → s.exit_flag = false → s.local_exit_flag = false →
      s.most_recent_init = 1 →
      ¬ (s.current_node = -2 ∨ s.current_node = -1 ∨ s.current_node = 3) →
      engine_loop sim (engine_mode sim n) (k + 1) s (m :: rest) =
        Outcome.ok { s with target_node := 1, local_exit_flag := false } rest) ∧
    (m.command = "ATOM_STEP" → s.exit_flag = false → s.local_exit_flag = false →
      s.most_recent_init = 2 →
      engine_loop sim (engine_mode sim n) (k + 1) s (m :: rest) =
        Outcome.ok { (if s.current_node = -1 then md_setup sim s else s) with
          target_node := 1, local_exit_flag := false } rest) := by
  have hem := quiet_engine_mode sim n
  have hC : ∀ t : FixMDI, t.most_recent_init = 1 →
      ¬ (t.current_node = -2 ∨ t.current_node = -1 ∨ t.current_node = 3) →
      timestep sim (engine_mode sim n) t rest =
        Outcome.ok { t with local_exit_flag := true } rest := by
    intro t h1 h2
    unfold timestep
    rw [if_pos h1, if_neg h2]
  have hD : ∀ t : FixMDI, t.most_recent_init = 2 →
      timestep sim (engine_mode sim n) t rest =
        Outcome.ok { t with target_node := 1, local_exit_flag := true } rest := by
    intro t h1
    have h2 : ¬ t.most_recent_init = 1 := by rw [h1]; decide
    unfold timestep
    rw [if_neg h2, if_pos h1]
  have hE : s.most_recent_init ≠ 1 → s.most_recent_init ≠ 2 →
      timestep sim (engine_mode sim n) s rest = Outcome.ok s rest := by
    intro h1 h2
    unfold timestep
    rw [if_neg h1, if_neg h2]
  refine ⟨timestep_run sim _ s rest, ?_, hC s, hD s, hE, ?_, ?_⟩
  · constructor
    · intro hne
      by_contra hcond
      apply hne
      by_cases h1 : s.most_recent_init = 1
      · have h2 : ¬ (s.current_node = -2 ∨ s.current_node = -1 ∨ s.current_node = 3) :=
          fun h => hcond ⟨h1, h⟩
        rw [hC s h1 h2]
        rfl
      · by_cases h2 : s.most_recent_init = 2
        · rw [hD s h2]
          rfl
        · rw [hE h1 h2]
          rfl
    · rintro ⟨h1, h2⟩
      rw [timestep_run sim _ s rest h1 h2]
      have hq := quiet_run_events sim hem sim.run { s with run_calls := s.run_calls + 1 } rest
      have hle : s.run_calls + 1 ≤ (run_events sim (engine_mode sim n) sim.run
          { s with run_calls := s.run_calls + 1 } rest).state.run_calls := hq.1
      omega
  · intro hm hexit hloc h1 h2
    have hc : s.current_node ≠ -1 := fun h => h2 (Or.inr (Or.inl h))
    have hd : dispatch sim (engine_mode sim n) k s m rest =
        Outcome.ok { s with target_node := 1, local_exit_flag := true } rest := by
      rw [dispatch_atom_step sim _ k s m rest hm, atom_step_later sim _ k s rest hc,
        hC { s with target_node := 1 } h1 h2]
      simp only [Outcome.andThen, Outcome.ok]
      exact atom_step_loop_stop sim _ k _ rest rfl
    exact engine_loop_yield sim _ k s _ m rest hexit hloc hd rfl
  · intro hm hexit hloc h1
    have hd : dispatch sim (engine_mode sim n) k s m rest =
        Outcome.ok { (if s.current_node = -1 then md_setup sim s else s) with
          target_node := 1, local_exit_flag := true } rest := by
      rw [dispatch_atom_step sim _ k s m rest hm]
      unfold atom_step
      simp only []
      have h2 : ({ (if s.current_node = -1 then md_setup sim s else s) with
          target_node := 1 } : FixMDI).most_recent_init = 2 := by
        split <;> simpa [md_setup, integrate_setup, setup] using h1
      rw [hD _ h2]
      simp only [Outcome.andThen, Outcome.ok]
      exact atom_step_loop_stop sim _ k _ rest rfl
    exact engine_loop_yield sim _ k s _ m rest hexit hloc hd rfl

/-- C20 on the engine after `MD_INIT`: at node -1 the step is run (the run
counter goes from 0 to 1), at node 2 it is not and `ATOM_STEP` makes the loop
return with the next command unread. -/
theorem C20_timestep_witness :
    (demo_md.most_recent_init = 1 ∧ demo_md.current_node = -1) ∧
    (timestep demo_sim (engine_mode demo_sim 2) demo_md []).state.run_calls ≠
      demo_md.run_calls ∧
    engine_loop demo_sim (engine_mode demo_sim 2) 1 { demo_md with current_node := 2 }
        [Msg.of "ATOM_STEP", Msg.of "<ENERGY"] =
      Outcome.ok { demo_md with current_node := 2, target_node := 1, local_exit_flag := false }
        [Msg.of "<ENERGY"] :=
  ⟨⟨by decide!, by decide!⟩,
    (C20_timestep demo_sim 2 0 demo_md (Msg.of "ATOM_STEP") []).2.1.2
      ⟨by decide!, Or.inr (Or.inl (by decide!))⟩,
    (C20_timestep demo_sim 2 0 { demo_md with current_node := 2 } (Msg.of "ATOM_STEP")
      [Msg.of "<ENERGY"]).2.2.2.2.2.1 rfl (by decide!) (by decide!) (by decide!) (by decide!)⟩

/-! ## C19: tag-indexed accesses -/

theorem buf_read_in (b : List ℚ) (i : Int) (h0 : 0 ≤ i) (h1 : i.toNat < b.length) :
    ∃ v, buf_read b i = some v := by
  unfold buf_read
  rw [if_pos h0]
  exact ⟨b[i.toNat], List.getElem?_eq_getElem h1⟩

theorem buf_write_in (b : List ℚ) (i : Int) (v : ℚ) (h0 : 0 ≤ i) (h1 : i.toNat < b.length) :
    ∃ b1, buf_write b i v = some b1 ∧ b1.length = b.length := by
  unfold buf_write
  rw [if_pos ⟨h0, h1⟩]
  exact ⟨_, rfl, List.length_set _ _ _⟩

theorem slot_in (N tag k : Int) (n : Nat) (hn : n = (3 * N).toNat) (h1 : 1 ≤ tag)
    (h2 : tag ≤ N) (hk0 : 0 ≤ k) (hk : k < 3) :
    0 ≤ 3 * (tag - 1) + k ∧ (3 * (tag - 1) + k).toNat < n := by
  omega

theorem buf_write3_in (N : Int) (b : List ℚ) (tag : Int) (v0 v1 v2 : ℚ)
    (hlen : b.length = (3 * N).toNat) (h1 : 1 ≤ tag) (h2 : tag ≤ N) :
    ∃ b1, buf_write3 b tag v0 v1 v2 = some b1 ∧ b1.length = b.length := by
  unfold buf_write3
  obtain ⟨a0, a1⟩ := slot_in N tag 0 b.length hlen h1 h2 (by decide) (by decide)
  obtain ⟨c0, hc0, hl0⟩ := buf_write_in b _ v0 a0 a1
  rw [hc0]
  obtain ⟨a2, a3⟩ := slot_in N tag 1 c0.length (hl0.trans hlen) h1 h2 (by decide) (by decide)
  obtain ⟨c1, hc1, hl1⟩ := buf_write_in c0 _ v1 a2 a3
  simp only [hc1]
  obtain ⟨a4, a5⟩ := slot_in N tag 2 c1.length (hl1.trans (hl0.trans hlen)) h1 h2 (by decide)
    (by decide)
  obtain ⟨c2, hc2, hl2⟩ := buf_write_in c1 _ v2 a4 a5
  exact ⟨c2, hc2, hl2.trans (hl1.trans hl0)⟩

theorem pack_coords_in (N : Int) (p : ℚ) (l : List Atom) :
    ∀ b : List ℚ, b.length = (3 * N).toNat → (∀ a ∈ l, 1 ≤ a.tag ∧ a.tag ≤ N) →
      ∃ b1, pack_coords p l b = some b1 ∧ b1.length = b.length := by
  induction l with
  | nil => intro b _ _; exact ⟨b, rfl, rfl⟩
  | cons a l ih =>
    intro b hlen hown
    obtain ⟨h1, h2⟩ := hown a (List.mem_cons_self _ _)
    obtain ⟨b1, hb1, hl1⟩ := buf_write3_in N b a.tag (a.x0 / p) (a.x1 / p) (a.x2 / p) hlen h1 h2
    obtain ⟨b2, hb2, hl2⟩ := ih b1 (hl1.trans hlen)
      (fun x hx => hown x (List.mem_cons_of_mem _ hx))
    simp only [pack_coords, hb1]
    exact ⟨b2, hb2, hl2.trans hl1⟩

theorem pack_forces_in (N : Int) (fc : ℚ) (l : List Atom) :
    ∀ b : List ℚ, b.length = (3 * N).toNat → (∀ a ∈ l, 1 ≤ a.tag ∧ a.tag ≤ N) →
      ∃ b1, pack_forces fc l b = some b1 ∧ b1.length = b.length := by
  induction l with
  | nil => intro b _ _; exact ⟨b, rfl, rfl⟩
  | cons a l ih =>
    intro b hlen hown
    obtain ⟨h1, h2⟩ := hown a (List.mem_cons_self _ _)
    obtain ⟨b1, hb1, hl1⟩ := buf_write3_in N b a.tag (a.f0 * fc) (a.f1 * fc) (a.f2 * fc) hlen h1
      h2
    obtain ⟨b2, hb2, hl2⟩ := ih b1 (hl1.trans hlen)
      (fun x hx => hown x (List.mem_cons_of_mem _ hx))
    simp only [pack_forces, hb1]
    exact ⟨b2, hb2, hl2.trans hl1⟩

theorem pack_charges_in (N : Int) (l : List Atom) :
    ∀ b : List ℚ, b.length = N.toNat → (∀ a ∈ l, 1 ≤ a.tag ∧ a.tag ≤ N) →
      ∃ b1, pack_charges l b = some b1 ∧ b1.length = b.length := by
  induction l with
  | nil => intro b _ _; exact ⟨b, rfl, rfl⟩
  | cons a l ih =>
    intro b hlen hown
    obtain ⟨h1, h2⟩ := hown a (List.mem_cons_self _ _)
    obtain ⟨b1, hb1, hl1⟩ := buf_write_in b (a.tag - 1) a.q (by omega) (by omega)
    obtain ⟨b2, hb2, hl2⟩ := ih b1 (hl1.trans hlen)
      (fun x hx => hown x (List.mem_cons_of_mem _ hx))
    simp only [pack_charges, hb1]
    exact ⟨b2, hb2, hl2.trans hl1⟩

theorem read3_in (N : Int) (b : List ℚ) (tag : Int) (hlen : b.length = (3 * N).toNat)
    (h1 : 1 ≤ tag) (h2 : tag ≤ N) :
    ∃ v0 v1 v2, buf_read b (3 * (tag - 1) + 0) = some v0 ∧
      buf_read b (3 * (tag - 1) + 1) = some v1 ∧ buf_read b (3 * (tag - 1) + 2) = some v2 := by
  obtain ⟨a0, a1⟩ := slot_in N tag 0 b.length hlen h1 h2 (by decide) (by decide)
  obtain ⟨a2, a3⟩ := slot_in N tag 1 b.length hlen h1 h2 (by decide) (by decide)
  obtain ⟨a4, a5⟩ := slot_in N tag 2 b.length hlen h1 h2 (by decide) (by decide)
  obtain ⟨v0, hv0⟩ := buf_read_in b _ a0 a1
  obtain ⟨v1, hv1⟩ := buf_read_in b _ a2 a3
  obtain ⟨v2, hv2⟩ := buf_read_in b _ a4 a5
  exact ⟨v0, v1, v2, hv0, hv1, hv2⟩

theorem scatter_coords_in (N : Int) (p : ℚ) (b : List ℚ) (hlen : b.length = (3 * N).toNat)
    (l : List Atom) :
    (∀ a ∈ l, 1 ≤ a.tag ∧ a.tag ≤ N) → ∃ r, scatter_coords p b l = some r := by
  induction l with
  | nil => intro _; exact ⟨[], rfl⟩
  | cons a l ih =>
    intro hown
    obtain ⟨h1, h2⟩ := hown a (List.mem_cons_self _ _)
    obtain ⟨v0, v1, v2, hv0, hv1, hv2⟩ := read3_in N b a.tag hlen h1 h2
    obtain ⟨r, hr⟩ := ih (fun x hx => hown x (List.mem_cons_of_mem _ hx))
    simp only [scatter_coords, hv0, hv1, hv2, hr]
    exact ⟨_, rfl⟩

theorem scatter_forces_in (N : Int) (fc : ℚ) (b : List ℚ) (hlen : b.length = (3 * N).toNat)
    (l : List Atom) :
    (∀ a ∈ l, 1 ≤ a.tag ∧ a.tag ≤ N) → ∃ r, scatter_forces fc b l = some r := by
  induction l with
  | nil => intro _; exact ⟨[], rfl⟩
  | cons a l ih =>
    intro hown
    obtain ⟨h1, h2⟩ := hown a (List.mem_cons_self _ _)
    obtain ⟨v0, v1, v2, hv0, hv1, hv2⟩ := read3_in N b a.tag hlen h1 h2
    obtain ⟨r, hr⟩ := ih (fun x hx => hown x (List.mem_cons_of_mem _ hx))
    simp only [scatter_forces, hv0, hv1, hv2, hr]
    exact ⟨_, rfl⟩

theorem exchange_forces_rank_in (N : Int) (gb : Nat) (b : List ℚ)
    (hlen : b.length = (3 * N).toNat) (l : List Atom) :
    (∀ a ∈ l, 1 ≤ a.tag ∧ a.tag ≤ N) → ∃ r, exchange_forces_rank gb b l = some r := by
  induction l with
  | nil => intro _; exact ⟨[], rfl⟩
  | cons a l ih =>
    intro hown
    obtain ⟨h1, h2⟩ := hown a (List.mem_cons_self _ _)
    obtain ⟨v0, v1, v2, hv0, hv1, hv2⟩ := read3_in N b a.tag hlen h1 h2
    obtain ⟨r, hr⟩ := ih (fun x hx => hown x (List.mem_cons_of_mem _ hx))
    simp only [exchange_forces_rank, hv0, hv1, hv2, hr]
    split <;> exact ⟨_, rfl⟩

theorem each_rank_in {α β : Type} (step : Nat → α → Option β) (l : List α) :
    ∀ r0 : Nat, (∀ r, ∀ a ∈ l, ∃ b, step r a = some b) → ∃ bs, each_rank step r0 l = some bs := by
  induction l with
  | nil => intro _ _; exact ⟨[], rfl⟩
  | cons a l ih =>
    intro r0 h
    obtain ⟨b, hb⟩ := h r0 a (List.mem_cons_self _ _)
    obtain ⟨bs, hbs⟩ := ih (r0 + 1) (fun r x hx => h r x (List.mem_cons_of_mem _ hx))
    simp only [each_rank, hb, hbs]
    exact ⟨_, rfl⟩

theorem new_double_length (sim : Sim) (r : Nat) (n : Int) :
    (new_double sim r n).length = n.toNat := by
  simp [new_double]

theorem gather_coordinates_in (sim : Sim) (N : Int) (atoms : List (List Atom))
    (hown : ∀ l ∈ atoms, ∀ a ∈ l, 1 ≤ a.tag ∧ a.tag ≤ N) :
    ∃ v, gather_coordinates sim N atoms = some v := by
  obtain ⟨bs, hbs⟩ := each_rank_in
    (fun r l => pack_coords sim.posconv l (new_double sim r (3 * N))) atoms 0
    (fun r l hl => by
      obtain ⟨b1, hb1, _⟩ := pack_coords_in N sim.posconv l (new_double sim r (3 * N))
        (new_double_length sim r _) (hown l hl)
      exact ⟨b1, hb1⟩)
  simp only [gather_coordinates, hbs]
  exact ⟨_, rfl⟩

theorem gather_forces_in (sim : Sim) (N : Int) (atoms : List (List Atom))
    (hown : ∀ l ∈ atoms, ∀ a ∈ l, 1 ≤ a.tag ∧ a.tag ≤ N) :
    ∃ v, gather_forces sim N atoms = some v := by
  obtain ⟨bs, hbs⟩ := each_rank_in
    (fun r l => pack_forces (forceconv sim) l (new_double sim r (3 * N))) atoms 0
    (fun r l hl => by
      obtain ⟨b1, hb1, _⟩ := pack_forces_in N (forceconv sim) l (new_double sim r (3 * N))
        (new_double_length sim r _) (hown l hl)
      exact ⟨b1, hb1⟩)
  simp only [gather_forces, hbs]
  exact ⟨_, rfl⟩

theorem gather_charges_in (sim : Sim) (N : Int) (atoms : List (List Atom))
    (hown : ∀ l ∈ atoms, ∀ a ∈ l, 1 ≤ a.tag ∧ a.tag ≤ N) :
    ∃ v, gather_charges sim N atoms = some v := by
  obtain ⟨bs, hbs⟩ := each_rank_in
    (fun r l => pack_charges l (new_double sim r N)) atoms 0
    (fun r l hl => by
      obtain ⟨b1, hb1, _⟩ := pack_charges_in N l (new_double sim r N)
        (new_double_length sim r _) (hown l hl)
      exact ⟨b1, hb1⟩)
  simp only [gather_charges, hbs]
  exact ⟨_, rfl⟩

/-- C19 (tag-indexed accesses are in bounds). Let every atom of every worker
have a tag in `[1, N]`, where `N` is the atom count the buffers are sized with
(`3N` slots, `N` for charges). Then every index `3*(tag-1)+k`, `k` in 0..2, lies
in `[0, 3N)` and reads a slot, every index `tag-1` lies in `[0, N)`, and none of
`receive_coordinates`, `send_coordinates`, `send_charges`, the gather of
`send_forces`, `receive_forces` and `exchange_forces` takes its out-of-range
branch. Distinct tags address disjoint slot triples. -/
theorem C19_tag_indices_in_bounds (sim : Sim) (s : FixMDI) (m : Msg) (rest : List Msg)
    (hown : ∀ l ∈ s.atoms, ∀ a ∈ l, 1 ≤ a.tag ∧ a.tag ≤ s.natoms) :
    (∀ l ∈ s.atoms, ∀ a ∈ l, ∀ k : Int, 0 ≤ k → k < 3 →
      0 ≤ 3 * (a.tag - 1) + k ∧ 3 * (a.tag - 1) + k < 3 * s.natoms ∧
      0 ≤ a.tag - 1 ∧ a.tag - 1 < s.natoms ∧
      (∀ b : List ℚ, b.length = (3 * s.natoms).toNat →
        (buf_read b (3 * (a.tag - 1) + k)).isSome = true)) ∧
    (receive_coordinates sim s m rest).status ≠ Status.fault ∧
    (send_coordinates sim s rest).status = Status.ok ∧
    (send_charges sim s rest).status = Status.ok ∧
    (gather_forces sim s.natoms s.atoms).isSome = true ∧
    (receive_forces sim s m rest).status ≠ Status.fault ∧
    (s.add_force.length = (3 * s.natoms).toNat → (exchange_forces s).isSome = true) ∧
    (∀ t1 t2 k1 k2 : Int, t1 ≠ t2 → 0 ≤ k1 → k1 < 3 → 0 ≤ k2 → k2 < 3 →
      3 * (t1 - 1) + k1 ≠ 3 * (t2 - 1) + k2) := by
  refine ⟨?_, ?_, ?_, ?_, ?_, ?_, ?_, ?_⟩
  · intro l hl a ha k hk0 hk
    obtain ⟨h1, h2⟩ := hown l hl a ha
    refine ⟨by omega, by omega, by omega, by omega, fun b hb => ?_⟩
    obtain ⟨a0, a1⟩ := slot_in s.natoms a.tag k b.length hb h1 h2 hk0 hk
    obtain ⟨v, hv⟩ := buf_read_in b _ a0 a1
    rw [hv]
    rfl
  · unfold receive_coordinates
    split
    · intro h; cases h
    · rename_i hlen
      obtain ⟨r, hr⟩ := each_rank_in (fun _ l => scatter_coords sim.posconv m.data l) s.atoms 0
        (fun _ l hl => scatter_coords_in s.natoms sim.posconv m.data (not_not.mp hlen) l
          (hown l hl))
      rw [hr]
      intro h
      cases h
  · obtain ⟨v, hv⟩ := gather_coordinates_in sim s.natoms s.atoms hown
    simp [send_coordinates, hv, Outcome.ok]
  · obtain ⟨v, hv⟩ := gather_charges_in sim s.natoms s.atoms hown
    simp [send_charges, hv, Outcome.ok]
  · obtain ⟨v, hv⟩ := gather_forces_in sim s.natoms s.atoms hown
    rw [hv]
    rfl
  · unfold receive_forces
    split
    · intro h; cases h
    · rename_i hlen
      obtain ⟨r, hr⟩ := each_rank_in (fun _ l => scatter_forces (forceconv sim) m.data l)
        s.atoms 0
        (fun _ l hl => scatter_forces_in s.natoms (forceconv sim) m.data (not_not.mp hlen) l
          (hown l hl))
      rw [hr]
      intro h
      cases h
  · intro hlen
    obtain ⟨r, hr⟩ := each_rank_in (fun _ l => exchange_forces_rank s.groupbit s.add_force l)
      s.atoms 0
      (fun _ l hl => exchange_forces_rank_in s.natoms s.groupbit s.add_force hlen l (hown l hl))
    simp [exchange_forces, hr]
  · intro t1 t2 k1 k2 hne h1 h2 h3 h4
    omega

/-- C19 on the two-rank engine: both tags lie in `[1, 2]`, and `<COORDS` and
`exchange_forces` take no out-of-range branch. -/
theorem C19_tag_indices_in_bounds_witness :
    (∀ l ∈ demo_engine.atoms, ∀ a ∈ l, 1 ≤ a.tag ∧ a.tag ≤ demo_engine.natoms) ∧
    (send_coordinates demo_sim demo_engine []).status = Status.ok ∧
    (exchange_forces demo_engine).isSome = true :=
  ⟨by decide!,
    (C19_tag_indices_in_bounds demo_sim demo_engine coords_msg [] (by decide!)).2.2.1,
    (C19_tag_indices_in_bounds demo_sim demo_engine coords_msg [] (by decide!)).2.2.2.2.2.2.1
      (by decide!)⟩

/-! ## The gather of coordinates on a zeroed heap -/

theorem agrees_congr {B : List ℚ} {S T : Nat → Prop} {b : List ℚ} (h : Agrees B S b)
    (hst : ∀ j, S j ↔ T j) : Agrees B T b :=
  ⟨h.1, fun j hj => ⟨fun ht => (h.2 j hj).1 ((hst j).mpr ht),
    fun ht => (h.2 j hj).2 (fun hs => ht ((hst j).mp hs))⟩⟩

theorem agrees_write {B : List ℚ} {S : Nat → Prop} {b : List ℚ} (h : Agrees B S b) (i : Int)
    (v : ℚ) (h0 : 0 ≤ i) (h1 : i.toNat < B.length) (hv : B[i.toNat]? = some v) :
    ∃ b1, buf_write b i v = some b1 ∧ Agrees B (fun j => S j ∨ j = i.toNat) b1 := by
  have hlt : i.toNat < b.length := by rw [h.1]; exact h1
  refine ⟨b.set i.toNat v, by simp [buf_write, h0, hlt], ?_, ?_⟩
  · rw [List.length_set]
    exact h.1
  · intro j hj
    rw [List.getElem?_set]
    by_cases hij : i.toNat = j
    · subst hij
      simp [hlt, hv]
    · have hji : ¬ j = i.toNat := fun h2 => hij h2.symm
      simp only [hij, if_false, hji, or_false]
      exact h.2 j hj

theorem agrees_write3 {B : List ℚ} {S : Nat → Prop} {b : List ℚ} (N : Int)
    (hB : B.length = (3 * N).toNat) (h : Agrees B S b) (t : Int) (v0 v1 v2 : ℚ)
    (h1 : 1 ≤ t) (h2 : t ≤ N) (hv0 : buf_read B (3 * (t - 1) + 0) = some v0)
    (hv1 : buf_read B (3 * (t - 1) + 1) = some v1)
    (hv2 : buf_read B (3 * (t - 1) + 2) = some v2) :
    ∃ b1, buf_write3 b t v0 v1 v2 = some b1 ∧
      Agrees B (fun j => S j ∨ ((j / 3 : Nat) : Int) + 1 = t) b1 := by
  obtain ⟨a0, a1⟩ := slot_in N t 0 B.length hB h1 h2 (by decide) (by decide)
  obtain ⟨a2, a3⟩ := slot_in N t 1 B.length hB h1 h2 (by decide) (by decide)
  obtain ⟨a4, a5⟩ := slot_in N t 2 B.length hB h1 h2 (by decide) (by decide)
  simp only [buf_read, a0, a2, a4, if_true] at hv0 hv1 hv2
  obtain ⟨c0, hc0, g0⟩ := agrees_write h _ v0 a0 a1 hv0
  obtain ⟨c1, hc1, g1⟩ := agrees_write g0 _ v1 a2 a3 hv1
  obtain ⟨c2, hc2, g2⟩ := agrees_write g1 _ v2 a4 a5 hv2
  have hw : buf_write3 b t v0 v1 v2 = some c2 := by
    unfold buf_write3
    rw [hc0]
    simp only [hc1]
    exact hc2
  refine ⟨c2, hw, agrees_congr g2 (fun j => ?_)⟩
  constructor
  · rintro (((hs | hj) | hj) | hj)
    · exact Or.inl hs
    · exact Or.inr (by omega)
    · exact Or.inr (by omega)
    · exact Or.inr (by omega)
  · rintro (hs | hj)
    · exact Or.inl (Or.inl (Or.inl hs))
    · have : j = (3 * (t - 1) + 0).toNat ∨ j = (3 * (t - 1) + 1).toNat ∨
          j = (3 * (t - 1) + 2).toNat := by omega
      rcases this with h3 | h3 | h3
      · exact Or.inl (Or.inl (Or.inr h3))
      · exact Or.inl (Or.inr h3)
      · exact Or.inr h3

theorem scatter_then_pack {B : List ℚ} (N : Int) (hB : B.length = (3 * N).toNat) (p : ℚ)
    (hp : p ≠ 0) (l : List Atom) :
    ∀ (b : List ℚ) (S : Nat → Prop), Agrees B S b → (∀ a ∈ l, 1 ≤ a.tag ∧ a.tag ≤ N) →
      ∃ l1, scatter_coords p B l = some l1 ∧
        ∃ b1, pack_coords p l1 b = some b1 ∧ Agrees B (fun j => S j ∨ owns l j) b1 := by
  induction l with
  | nil =>
    intro b S h _
    exact ⟨[], rfl, b, rfl, agrees_congr h (fun j => by simp [owns])⟩
  | cons a l ih =>
    intro b S h hown
    obtain ⟨h1, h2⟩ := hown a (List.mem_cons_self _ _)
    obtain ⟨v0, v1, v2, hv0, hv1, hv2⟩ := read3_in N B a.tag hB h1 h2
    obtain ⟨b1, hb1, g1⟩ := agrees_write3 N hB h a.tag v0 v1 v2 h1 h2 hv0 hv1 hv2
    obtain ⟨l1, hl1, b2, hb2, g2⟩ := ih b1 _ g1 (fun x hx => hown x (List.mem_cons_of_mem _ hx))
    refine ⟨{ a with x0 := v0 * p, x1 := v1 * p, x2 := v2 * p } :: l1, ?_, b2, ?_, ?_⟩
    · simp only [scatter_coords, hv0, hv1, hv2, hl1]
    · simp only [pack_coords, mul_div_cancel_right₀ _ hp, hb1]
      exact hb2
    · refine agrees_congr g2 (fun j => ?_)
      simp only [owns, List.mem_cons, exists_eq_or_imp]
      constructor
      · rintro ((hs | ht) | ho)
        · exact Or.inl hs
        · exact Or.inr (Or.inl ht)
        · exact Or.inr (Or.inr ho)
      · rintro (hs | ht | ho)
        · exact Or.inl (Or.inl hs)
        · exact Or.inl (Or.inr ht)
        · exact Or.inr ho

theorem agrees_zero (sim : Sim) (hz : ∀ r i, sim.heap r i = 0) (B : List ℚ) (r : Nat) (n : Int)
    (hn : n.toNat = B.length) : Agrees B (fun _ => False) (new_double sim r n) := by
  refine ⟨by rw [new_double_length, hn], fun j hj => ⟨fun h => h.elim, fun _ => ?_⟩⟩
  unfold new_double
  rw [List.getElem?_map, List.getElem?_range (by rw [hn]; exact hj)]
  simp [hz]

theorem agrees_replicate (B : List ℚ) (n : Nat) (hn : n = B.length) :
    Agrees B (fun _ => False) (List.replicate n 0) := by
  refine ⟨by simp [hn], fun j hj => ⟨fun h => h.elim, fun _ => ?_⟩⟩
  rw [List.getElem?_replicate, if_pos (by rw [hn]; exact hj)]

theorem agrees_add {B : List ℚ} {S T : Nat → Prop} {b c : List ℚ} (hb : Agrees B S b)
    (hc : Agrees B T c) (hd : ∀ j, S j → T j → False) :
    Agrees B (fun j => S j ∨ T j) (buf_add b c) := by
  refine ⟨by simp [buf_add, hb.1, hc.1], fun j hj => ?_⟩
  obtain ⟨v, hv⟩ : ∃ v, B[j]? = some v := ⟨B[j], List.getElem?_eq_getElem hj⟩
  unfold buf_add
  rw [List.getElem?_zipWith]
  by_cases hs : S j
  · have ht : ¬ T j := fun h => hd j hs h
    rw [(hb.2 j hj).1 hs, (hc.2 j hj).2 ht, hv]
    simp [hs]
  · by_cases ht : T j
    · rw [(hb.2 j hj).2 hs, (hc.2 j hj).1 ht, hv]
      simp [ht]
    · rw [(hb.2 j hj).2 hs, (hc.2 j hj).2 ht]
      simp [hs, ht]

theorem ranks_gather {B : List ℚ} (sim : Sim) (hz : ∀ r i, sim.heap r i = 0) (N : Int)
    (hB : B.length = (3 * N).toNat) (hp : sim.posconv ≠ 0) (atoms : List (List Atom)) :
    ∀ (r1 r2 : Nat) (acc : List ℚ) (S : Nat → Prop), Agrees B S acc →
      (∀ l ∈ atoms, ∀ a ∈ l, 1 ≤ a.tag ∧ a.tag ≤ N) →
      atoms.Pairwise (fun l1 l2 => ∀ a ∈ l1, ∀ c ∈ l2, a.tag ≠ c.tag) →
      (∀ l ∈ atoms, ∀ j, S j → owns l j → False) →
      ∃ atoms1, each_rank (fun _ l => scatter_coords sim.posconv B l) r1 atoms = some atoms1 ∧
        ∃ bufs, each_rank (fun r l => pack_coords sim.posconv l (new_double sim r (3 * N))) r2
            atoms1 = some bufs ∧
          Agrees B (fun j => S j ∨ ∃ l ∈ atoms, owns l j) (bufs.foldl buf_add acc) := by
  induction atoms with
  | nil =>
    intro r1 r2 acc S h _ _ _
    exact ⟨[], rfl, [], rfl, agrees_congr h (fun j => by simp)⟩
  | cons l atoms ih =>
    intro r1 r2 acc S h hown hpair hdis
    obtain ⟨l1, hl1, b1, hb1, g1⟩ := scatter_then_pack N hB sim.posconv hp l
      (new_double sim r2 (3 * N)) (fun _ => False)
      (agrees_zero sim hz B r2 (3 * N) hB.symm) (hown l (List.mem_cons_self _ _))
    have g2 := agrees_add h g1 (fun j hs ho => by
      rcases ho with ho | ho
      · exact ho
      · exact hdis l (List.mem_cons_self _ _) j hs ho)
    obtain ⟨hl, hrest⟩ := List.pairwise_cons.mp hpair
    obtain ⟨atoms1, ha1, bufs, hbufs, g3⟩ := ih (r1 + 1) (r2 + 1) (buf_add acc b1) _ g2
      (fun x hx => hown x (List.mem_cons_of_mem _ hx)) hrest
      (fun l2 hl2 j hs ho => by
        rcases hs with hs | hs | hs
        · exact hdis l2 (List.mem_cons_of_mem _ hl2) j hs ho
        · exact hs
        · obtain ⟨a, ha, hta⟩ := hs
          obtain ⟨c, hc, htc⟩ := ho
          exact hl l2 hl2 a ha c hc (hta.symm.trans htc))
    refine ⟨l1 :: atoms1, ?_, b1 :: bufs, ?_, ?_⟩
    · simp only [each_rank, hl1, ha1]
    · simp only [each_rank, hb1, hbufs]
    · rw [List.foldl_cons]
      refine agrees_congr g3 (fun j => ?_)
      simp only [List.mem_cons, exists_eq_or_imp, false_or]
      constructor
      · rintro ((hs | ho) | ho)
        · exact Or.inl hs
        · exact Or.inr (Or.inl ho)
        · exact Or.inr (Or.inr ho)
      · rintro (hs | ho | ho)
        · exact Or.inl (Or.inl hs)
        · exact Or.inl (Or.inr ho)
        · exact Or.inr ho

theorem gather_after_scatter (sim : Sim) (hz : ∀ r i, sim.heap r i = 0)
    (hp : sim.posconv ≠ 0) (N : Int) (B : List ℚ) (hB : B.length = (3 * N).toNat)
    (atoms : List (List Atom)) (hown : ∀ l ∈ atoms, ∀ a ∈ l, 1 ≤ a.tag ∧ a.tag ≤ N)
    (hpair : atoms.Pairwise (fun l1 l2 => ∀ a ∈ l1, ∀ c ∈ l2, a.tag ≠ c.tag))
    (hcover : ∀ t : Int, 1 ≤ t → t ≤ N → ∃ l ∈ atoms, ∃ a ∈ l, a.tag = t) :
    ∃ atoms1, each_rank (fun _ l => scatter_coords sim.posconv B l) 0 atoms = some atoms1 ∧
      gather_coordinates sim N atoms1 = some B := by
  obtain ⟨atoms1, ha1, bufs, hbufs, g⟩ := ranks_gather sim hz N hB hp atoms 0 0
    (List.replicate (3 * N).toNat 0) (fun _ => False) (agrees_replicate B _ hB.symm) hown hpair
    (fun _ _ _ hs _ => hs)
  refine ⟨atoms1, ha1, ?_⟩
  simp only [gather_coordinates, hbufs, mpi_reduce_sum]
  congr 1
  apply List.ext_getElem?
  intro j
  by_cases hj : j < B.length
  · refine (g.2 j hj).1 (Or.inr ?_)
    obtain ⟨l, hl, a, ha, hta⟩ := hcover (((j / 3 : Nat) : Int) + 1) (by omega) (by omega)
    exact ⟨l, hl, a, ha, hta.symm⟩
  · rw [List.getElem?_eq_none (by rw [g.1]; omega), List.getElem?_eq_none (by omega)]
/-! ## C11: coordinate round trip -/

/-- C11 (coordinate round trip). Two ranks own one atom each, the position
factor is 1, wrap and migration change nothing, and the heap holds 5 in the
buffers obtained from `new double[..]`: scattering `[1,..,6]` with `>COORDS`
stores exactly these positions, but the immediately following `<COORDS` sends
`[6,..,11]`, because `send_coordinates` sums the slots that a rank does not own
without clearing them. With a heap of zeros the same exchange returns
`[1,..,6]`, and in general: when the heap holds zeros, the position factor is
not zero, wrap and migration change nothing, every tag lies in `[1, N]`,
different ranks hold different tags and every tag of `[1, N]` is held by some
rank, `>COORDS` with a buffer of `3N` values followed by `<COORDS` sends that
buffer back, slot for slot. -/
theorem C11_round_trip_uninitialised :
    (receive_coordinates dirty_sim demo_engine coords_msg []).status = Status.ok ∧
    (send_coordinates dirty_sim (receive_coordinates dirty_sim demo_engine coords_msg []).state
      []).state.sent = [Reply.doubles [6, 7, 8, 9, 10, 11]] ∧
    (send_coordinates demo_sim (receive_coordinates demo_sim demo_engine coords_msg []).state
      []).state.sent = [Reply.doubles [1, 2, 3, 4, 5, 6]] ∧
    (∀ (sim : Sim) (s : FixMDI) (m : Msg) (rest : List Msg),
      (∀ r i, sim.heap r i = 0) → sim.posconv ≠ 0 → (∀ x, sim.remap x = x) →
      m.data.length = (3 * s.natoms).toNat →
      (∀ l ∈ s.atoms, ∀ a ∈ l, 1 ≤ a.tag ∧ a.tag ≤ s.natoms) →
      s.atoms.Pairwise (fun l1 l2 => ∀ a ∈ l1, ∀ c ∈ l2, a.tag ≠ c.tag) →
      (∀ t : Int, 1 ≤ t → t ≤ s.natoms → ∃ l ∈ s.atoms, ∃ a ∈ l, a.tag = t) →
      (receive_coordinates sim s m rest).status = Status.ok ∧
      send_coordinates sim (receive_coordinates sim s m rest).state rest =
        Outcome.ok (send_doubles (receive_coordinates sim s m rest).state m.data) rest) := by
  refine ⟨?_, ?_, ?_, ?_⟩
  · decide!
  · decide!
  · decide!
  · intro sim s m rest hz hp hremap hlen hown hpair hcover
    obtain ⟨atoms1, ha1, hg⟩ := gather_after_scatter sim hz hp s.natoms m.data hlen s.atoms hown
      hpair hcover
    have hr : receive_coordinates sim s m rest = Outcome.ok { s with atoms := atoms1 } rest := by
      unfold receive_coordinates
      rw [if_neg (not_not.mpr hlen), ha1]
      simp only [hremap]
    rw [hr]
    refine ⟨rfl, ?_⟩
    simp only [send_coordinates, Outcome.ok, hg]

end MDI
